import Mathlib

set_option autoImplicit false
set_option maxRecDepth 8000

/-!
Shallow embedding of the channel multiplexing and frame-dispatch engine of
SimpleAmqpClient (src/src/ChannelImpl.cpp).  The transport (rabbitmq-c) is
modelled as a stream of already-decoded frames (`incoming`), a log of sent
methods (`sent_methods`) and a log of the per-channel buffer-release hints
(`released_channels`).  C++ exceptions are modelled with `Except`, paired
with the state that the object holds when the exception escapes.
-/

/-- AMQP frame-type tag for method frames (AMQP_FRAME_METHOD). -/
def AMQP_FRAME_METHOD : Nat := 1

/-- AMQP frame-type tag for content header frames (AMQP_FRAME_HEADER). -/
def AMQP_FRAME_HEADER : Nat := 2

/-- AMQP frame-type tag for content body frames (AMQP_FRAME_BODY). -/
def AMQP_FRAME_BODY : Nat := 3

/-- Method id of basic.deliver (AMQP_BASIC_DELIVER_METHOD, class 60 method 60);
the engine uses method ids only as opaque tags, so the model encodes the
(class, method) pair as class * 1000 + method. -/
def AMQP_BASIC_DELIVER_METHOD : Nat := 60060

/-- Method id of basic.ack (AMQP_BASIC_ACK_METHOD, class 60 method 80). -/
def AMQP_BASIC_ACK_METHOD : Nat := 60080

/-- Method id of basic.nack (AMQP_BASIC_NACK_METHOD, class 60 method 120). -/
def AMQP_BASIC_NACK_METHOD : Nat := 60120

/-- Method id of basic.return (AMQP_BASIC_RETURN_METHOD, class 60 method 50). -/
def AMQP_BASIC_RETURN_METHOD : Nat := 60050

/-- Method id of channel.close (AMQP_CHANNEL_CLOSE_METHOD, class 20 method 40). -/
def AMQP_CHANNEL_CLOSE_METHOD : Nat := 20040

/-- Method id of channel.close-ok (AMQP_CHANNEL_CLOSE_OK_METHOD, class 20 method 41). -/
def AMQP_CHANNEL_CLOSE_OK_METHOD : Nat := 20041

/-- Method id of connection.close (AMQP_CONNECTION_CLOSE_METHOD, class 10 method 50). -/
def AMQP_CONNECTION_CLOSE_METHOD : Nat := 10050

/-- Method id of connection.close-ok (AMQP_CONNECTION_CLOSE_OK_METHOD, class 10 method 51). -/
def AMQP_CONNECTION_CLOSE_OK_METHOD : Nat := 10051

/-- Method id of channel.open (AMQP_CHANNEL_OPEN_METHOD, class 20 method 10). -/
def AMQP_CHANNEL_OPEN_METHOD : Nat := 20010

/-- Method id of channel.open-ok (AMQP_CHANNEL_OPEN_OK_METHOD, class 20 method 11). -/
def AMQP_CHANNEL_OPEN_OK_METHOD : Nat := 20011

/-- Method id of confirm.select (AMQP_CONFIRM_SELECT_METHOD, class 85 method 10). -/
def AMQP_CONFIRM_SELECT_METHOD : Nat := 85010

/-- Method id of confirm.select-ok (AMQP_CONFIRM_SELECT_OK_METHOD, class 85 method 11). -/
def AMQP_CONFIRM_SELECT_OK_METHOD : Nat := 85011

/-- Decoded method payloads: the cases of `frame.payload.method.decoded`
that ChannelImpl.cpp reinterpret_casts to.  All other methods carry no
data the engine reads and are collapsed into `other`. -/
inductive AmqpMethod where
  | basicDeliver (consumer_tag : String) (delivery_tag : Nat)
  | basicAck (delivery_tag : Nat) (multiple : Bool)
  | basicNack (delivery_tag : Nat) (multiple : Bool) (requeue : Bool)
  | basicReturn (reply_code : Nat) (reply_text : String) (exchange : String) (routing_key : String)
  | channelClose (reply_code : Nat) (reply_text : String)
  | connectionClose (reply_code : Nat) (reply_text : String)
  | other (id : Nat)
  deriving Repr, DecidableEq

/-- The wire method id of a decoded method (`frame.payload.method.id`). -/
def AmqpMethod.id : AmqpMethod → Nat
  | .basicDeliver _ _ => AMQP_BASIC_DELIVER_METHOD
  | .basicAck _ _ => AMQP_BASIC_ACK_METHOD
  | .basicNack _ _ _ => AMQP_BASIC_NACK_METHOD
  | .basicReturn _ _ _ _ => AMQP_BASIC_RETURN_METHOD
  | .channelClose _ _ => AMQP_CHANNEL_CLOSE_METHOD
  | .connectionClose _ _ => AMQP_CONNECTION_CLOSE_METHOD
  | .other n => n

/-- The payload union of an amqp_frame_t, tagged exactly as `frame_type`
discriminates it in the source. -/
inductive FramePayload where
  | method (m : AmqpMethod)
  | header (props : Nat) (body_size : Nat)
  | body (fragment : List Nat)
  deriving Repr, DecidableEq

/-- One amqp_frame_t as seen by ChannelImpl: a channel id and the decoded
payload.  Properties of a header frame are modelled as an opaque token
(`props`), body fragments as byte lists. -/
structure Frame where
  channel : Nat
  payload : FramePayload
  deriving Repr, DecidableEq

/-- The frame_type tag of a frame. -/
def Frame.frame_type (f : Frame) : Nat :=
  match f.payload with
  | .method _ => AMQP_FRAME_METHOD
  | .header _ _ => AMQP_FRAME_HEADER
  | .body _ => AMQP_FRAME_BODY

/-- Reading frame.payload.method.id; 0 when the payload is not a method
(the source only reads it behind a frame_type guard). -/
def Frame.methodId (f : Frame) : Nat :=
  match f.payload with
  | .method m => m.id
  | _ => 0

/-- Reading the delivery_tag member of a decoded basic.ack or basic.nack. -/
def Frame.deliveryTag (f : Frame) : Nat :=
  match f.payload with
  | .method (.basicAck t _) => t
  | .method (.basicNack t _ _) => t
  | _ => 0

/-- Reading the body_size member of a decoded header. -/
def Frame.bodySize (f : Frame) : Nat :=
  match f.payload with
  | .header _ n => n
  | _ => 0

/-- Reading the properties of a decoded header (opaque token). -/
def Frame.headerProps (f : Frame) : Nat :=
  match f.payload with
  | .header p _ => p
  | _ => 0

/-- Reading the body_fragment member of a body frame. -/
def Frame.fragment (f : Frame) : List Nat :=
  match f.payload with
  | .body b => b
  | _ => []

/-- Reading the reply_code of a decoded basic.return. -/
def Frame.returnReplyCode (f : Frame) : Nat :=
  match f.payload with
  | .method (.basicReturn c _ _ _) => c
  | _ => 0

/-- Reading the reply_text of a decoded basic.return. -/
def Frame.returnReplyText (f : Frame) : String :=
  match f.payload with
  | .method (.basicReturn _ t _ _) => t
  | _ => ""

/-- Reading the exchange of a decoded basic.return. -/
def Frame.returnExchange (f : Frame) : String :=
  match f.payload with
  | .method (.basicReturn _ _ e _) => e
  | _ => ""

/-- Reading the routing_key of a decoded basic.return. -/
def Frame.returnRoutingKey (f : Frame) : String :=
  match f.payload with
  | .method (.basicReturn _ _ _ k) => k
  | _ => ""

/-- Reading the reply_code of a decoded channel.close or connection.close. -/
def Frame.closeReplyCode (f : Frame) : Nat :=
  match f.payload with
  | .method (.channelClose c _) => c
  | .method (.connectionClose c _) => c
  | _ => 0

/-- Reading the reply_text of a decoded channel.close or connection.close. -/
def Frame.closeReplyText (f : Frame) : String :=
  match f.payload with
  | .method (.channelClose _ t) => t
  | .method (.connectionClose _ t) => t
  | _ => ""

/-- Reading the consumer_tag of a decoded basic.deliver. -/
def Frame.deliverConsumerTag (f : Frame) : String :=
  match f.payload with
  | .method (.basicDeliver ct _) => ct
  | _ => ""

/-- Reading the delivery_tag of a decoded basic.deliver. -/
def Frame.deliverDeliveryTag (f : Frame) : Nat :=
  match f.payload with
  | .method (.basicDeliver _ dt) => dt
  | _ => 0

/-- Channel availability, the channel_state_t::availability enum
(CS_Closed / CS_Open / CS_Used). -/
inductive Availability where
  | CS_Closed
  | CS_Open
  | CS_Used
  deriving Repr, DecidableEq

/-- Per-channel state record (channel_state_t of ChannelImpl.h as the spec
documents its fields: availability, last_delivery_tag, unconsumed_ack,
direct_reply_tag; the numeric fields value-initialize to zero). -/
structure channel_state_t where
  availability : Availability
  last_delivery_tag : Nat := 0
  unconsumed_ack : Nat := 0
  direct_reply_tag : String := ""
  deriving Repr, DecidableEq

/-- A reassembled message: the deep-copied header properties (opaque token)
and the concatenated body bytes. -/
structure BasicMessage where
  props : Nat
  body : List Nat
  deriving Repr, DecidableEq

/-- The data carried by MessageReturnedException (content, reply code and
text, exchange, routing key). -/
structure MessageReturnedExn where
  message : BasicMessage
  reply_code : Nat
  reply_text : String
  exchange : String
  routing_key : String
  deriving Repr, DecidableEq

/-- Modelled from the spec: an Envelope (declared outside src) is one
fully-reassembled incoming delivery: the message plus the delivery data of
its basic.deliver method. -/
structure Envelope where
  message : BasicMessage
  consumer_tag : String
  delivery_tag : Nat
  channel : Nat
  deriving Repr, DecidableEq

/-- The exceptions ChannelImpl can raise, by site:
out-of-range from std::vector::at, the "Too many channels open"
runtime_error, the "Protocol error" / unexpected-frame-type runtime_errors,
AmqpException mapped from channel.close / connection.close,
MessageRejectedException (MessageNackedByBroker),
MessageReturnedException, the logic_error in AddToFrameQueue,
std::invalid_argument / std::out_of_range from std::stoul, and
`wouldBlock`, which models an infinite blocking wait on a transport
stream that has no further frame. -/
inductive Err where
  | outOfRange
  | tooManyChannels
  | protocolViolation
  | channelException (reply_code : Nat) (reply_text : String)
  | connectionException (reply_code : Nat) (reply_text : String)
  | messageRejected (delivery_tag : Nat)
  | messageReturned (e : MessageReturnedExn)
  | logicError
  | invalidArgument
  | stoulOutOfRange
  | wouldBlock
  deriving Repr, DecidableEq

/-- The state of Channel::ChannelImpl together with the modelled transport:
`incoming` is the stream of frames the broker will deliver,
`sent_methods` logs (channel, method id) pairs passed to amqp_send_method,
`channel_max` is amqp_get_channel_max(m_connection), and
`released_channels` logs calls to amqp_maybe_release_buffers_on_channel. -/
structure CState where
  m_channels : List channel_state_t
  m_last_used_channel : Nat
  m_is_connected : Bool
  m_frame_queue : List Frame
  m_delivered_messages : List Envelope
  channel_max : Nat
  incoming : List Frame
  sent_methods : List (Nat × Nat)
  released_channels : List Nat
  deriving Repr, DecidableEq

/-- std::vector::at read access: `some` in range, `none` models the
std::out_of_range throw. -/
def listAt {α : Type} (l : List α) (i : Nat) : Option α := l.get? i

/-- Write through a reference obtained from m_channels.at(i). -/
def setChannelState (i : Nat) (st : channel_state_t) (s : CState) : CState :=
  { s with m_channels := s.m_channels.set i st }

/-- amqp_send_method: log the (channel, method id) pair on the transport. -/
def sendMethod (channel methodId : Nat) (s : CState) : CState :=
  { s with sent_methods := s.sent_methods ++ [(channel, methodId)] }

/-- Remove the first frame satisfying `p` (std::find_if followed by
erase), returning it and the remaining queue in order. -/
def extractFirst (p : Frame → Bool) : List Frame → Option (Frame × List Frame)
  | [] => none
  | f :: rest =>
    if p f then some (f, rest)
    else (extractFirst p rest).map (fun pr => (pr.1, f :: pr.2))

/-- Find the first frame satisfying `p` (std::find_if), returning it and
the suffix of the list after it (the iterator range it+1 .. end). -/
def findFrame (p : Frame → Bool) : List Frame → Option (Frame × List Frame)
  | [] => none
  | f :: rest => if p f then some (f, rest) else findFrame p rest

/-- Split a list at the first frame satisfying `p`: the prefix before it,
the frame, and the suffix after it. -/
def splitFirst (p : Frame → Bool) : List Frame → Option (List Frame × Frame × List Frame)
  | [] => none
  | f :: rest =>
    if p f then some ([], f, rest)
    else (splitFirst p rest).map (fun t => (f :: t.1, t.2.1, t.2.2))

/-- Index of the first channel-state entry satisfying `p` (std::find_if
over m_channels, returning iterator minus begin). -/
def findFirstIdx (p : channel_state_t → Bool) : List channel_state_t → Option Nat
  | [] => none
  | st :: rest => if p st then some 0 else (findFirstIdx p rest).map (· + 1)

/-- Modelled from the spec: the is_on_channel predicate declared in the
missing ChannelImpl.h — the frame belongs to the given channel. -/
def is_on_channel (f : Frame) (channel : Nat) : Bool :=
  f.channel == channel

/-- Modelled from the spec: the is_method_on_channel predicate declared in
the missing ChannelImpl.h — a method frame with the given method id on the
given channel. -/
def is_method_on_channel (f : Frame) (methodId channel : Nat) : Bool :=
  f.frame_type == AMQP_FRAME_METHOD && f.methodId == methodId && f.channel == channel

/-- A method frame that is a channel.close or connection.close. -/
def isCloseMethodFrame (f : Frame) : Bool :=
  f.frame_type == AMQP_FRAME_METHOD &&
    (f.methodId == AMQP_CHANNEL_CLOSE_METHOD || f.methodId == AMQP_CONNECTION_CLOSE_METHOD)

/-- Modelled from the spec: the matching test of the RPC engine's wait
primitive (is_expected_method_on_channel in the missing ChannelImpl.h):
channel membership, plus — when an expected-method set is given — being a
method frame whose id is in the set. -/
def matchesWait (f : Frame) (channels : List Nat) (expected : Option (List Nat)) : Bool :=
  channels.contains f.channel &&
    (match expected with
     | none => true
     | some ids => f.frame_type == AMQP_FRAME_METHOD && ids.contains f.methodId)

/-- FinishCloseChannel: mark the channel Closed and send channel.close-ok. -/
def FinishCloseChannel (channel : Nat) (s : CState) : Except Err Unit × CState :=
  match listAt s.m_channels channel with
  | none => (.error .outOfRange, s)
  | some st =>
    let s1 := setChannelState channel { st with availability := .CS_Closed } s
    (.ok (), sendMethod channel AMQP_CHANNEL_CLOSE_OK_METHOD s1)

/-- FinishCloseConnection: mark not-connected and send connection.close-ok. -/
def FinishCloseConnection (s : CState) : CState :=
  sendMethod 0 AMQP_CONNECTION_CLOSE_OK_METHOD { s with m_is_connected := false }

/-- CheckFrameForClose: if the frame is a channel.close or connection.close
method, perform the close handshake and raise the mapped exception. -/
def CheckFrameForClose (frame : Frame) (channel : Nat) (s : CState) : Except Err Unit × CState :=
  if frame.frame_type == AMQP_FRAME_METHOD then
    if frame.methodId == AMQP_CHANNEL_CLOSE_METHOD then
      match FinishCloseChannel channel s with
      | (.error e, s1) => (.error e, s1)
      | (.ok _, s1) => (.error (.channelException frame.closeReplyCode frame.closeReplyText), s1)
    else if frame.methodId == AMQP_CONNECTION_CLOSE_METHOD then
      (.error (.connectionException frame.closeReplyCode frame.closeReplyText),
        FinishCloseConnection s)
    else (.ok (), s)
  else (.ok (), s)

/-- Modelled from the spec: the transport-read loop of the RPC engine
(GetNextFrameFromBrokerOnChannel / the reading half of GetMethodOnChannel,
declared in the missing ChannelImpl.h).  Repeatedly read the next frame
from the broker; every frame observed is first checked for being a
channel.close or connection.close (even frames not destined for the
awaited channels); a frame matching the wait is returned; all other frames
are parked in the frame queue.  An exhausted stream models a wait that
would block forever and yields no frame. -/
def awaitLoopAux (channels : List Nat) (expected : Option (List Nat)) :
    List Frame → CState → Except Err (Option Frame) × CState
  | [], s => (.ok none, s)
  | f :: rest, s =>
    let s1 := { s with incoming := rest }
    match CheckFrameForClose f f.channel s1 with
    | (.error e, s2) => (.error e, s2)
    | (.ok _, s2) =>
      if matchesWait f channels expected then (.ok (some f), s2)
      else awaitLoopAux channels expected rest { s2 with m_frame_queue := s2.m_frame_queue ++ [f] }

/-- Modelled from the spec: GetNextFrameFromBrokerOnChannel (declared in
the missing ChannelImpl.h): block on the transport until a frame for one
of the given channels arrives, close-checking and parking along the way. -/
def GetNextFrameFromBrokerOnChannel (channels : List Nat) (s : CState) :
    Except Err (Option Frame) × CState :=
  awaitLoopAux channels none s.incoming s

/-- Modelled from the spec: GetMethodOnChannel (declared in the missing
ChannelImpl.h): first consult the frame queue for a parked method frame
matching the wait, else fall back to the transport-read loop. -/
def GetMethodOnChannel (channels : List Nat) (expected : List Nat) (s : CState) :
    Except Err (Option Frame) × CState :=
  match extractFirst (fun f => matchesWait f channels (some expected)) s.m_frame_queue with
  | some (f, q1) => (.ok (some f), { s with m_frame_queue := q1 })
  | none => awaitLoopAux channels (some expected) s.incoming s

/-- GetNextFrameOnChannel: take the first queued frame on the channel if
any — raising the mapped exception if it is a channel.close — else read
from the broker. -/
def GetNextFrameOnChannel (channel : Nat) (s : CState) : Except Err (Option Frame) × CState :=
  match extractFirst (fun f => is_on_channel f channel) s.m_frame_queue with
  | some (f, q1) =>
    let s1 := { s with m_frame_queue := q1 }
    if f.frame_type == AMQP_FRAME_METHOD && f.methodId == AMQP_CHANNEL_CLOSE_METHOD then
      match FinishCloseChannel channel s1 with
      | (.error e, s2) => (.error e, s2)
      | (.ok _, s2) => (.error (.channelException f.closeReplyCode f.closeReplyText), s2)
    else (.ok (some f), s1)
  | none => GetNextFrameFromBrokerOnChannel [channel] s

/-- MaybeReleaseBuffersOnChannel: when no queued frame remains for the
channel, hint the transport to release its per-channel buffers. -/
def MaybeReleaseBuffersOnChannel (channel : Nat) (s : CState) : CState :=
  match findFrame (fun f => is_on_channel f channel) s.m_frame_queue with
  | none => { s with released_channels := s.released_channels ++ [channel] }
  | some _ => s

/-- ReturnChannel: mark the channel Open and record it as the most
recently used channel. -/
def ReturnChannel (channel : Nat) (s : CState) : Except Err Unit × CState :=
  match listAt s.m_channels channel with
  | none => (.error .outOfRange, s)
  | some st =>
    let s1 := setChannelState channel { st with availability := .CS_Open } s
    (.ok (), { s1 with m_last_used_channel := channel })

/-- The body-reading loop of ReadContent (frame #3 and up): while fewer
bytes than the declared body size have been received, read the next frame
on the channel, require it to be a body frame, and append its fragment.
The loop is paced by a fuel counter: each iteration consumes exactly one
frame from the queue-plus-stream supply, so the fuel ReadContent passes in
(that supply's size) is exact — when it runs out the next read could only
have blocked forever, which is the same `wouldBlock` outcome. -/
def readBodyLoop (channel body_size : Nat) :
    Nat → Nat → List Nat → CState → Except Err (List Nat) × CState
  | fuel, received_size, body, s =>
    if received_size < body_size then
      match fuel with
      | 0 => (.error .wouldBlock, s)
      | fuel' + 1 =>
        match GetNextFrameOnChannel channel s with
        | (.error e, s1) => (.error e, s1)
        | (.ok none, s1) => (.error .wouldBlock, s1)
        | (.ok (some frame), s1) =>
          if frame.frame_type == AMQP_FRAME_BODY then
            readBodyLoop channel body_size fuel' (received_size + frame.fragment.length)
              (body ++ frame.fragment) s1
          else (.error .protocolViolation, s1)
    else (.ok body, s)

/-- ReadContent: read one header frame (protocol violation if the next
frame on the channel is anything else), then body frames until the
accumulated length equals the declared body size, and build the message
with the header's properties. -/
def ReadContent (channel : Nat) (s : CState) : Except Err BasicMessage × CState :=
  match GetNextFrameOnChannel channel s with
  | (.error e, s1) => (.error e, s1)
  | (.ok none, s1) => (.error .wouldBlock, s1)
  | (.ok (some frame), s1) =>
    if frame.frame_type == AMQP_FRAME_HEADER then
      match readBodyLoop channel frame.bodySize
          (s1.m_frame_queue.length + s1.incoming.length) 0 [] s1 with
      | (.error e, s2) => (.error e, s2)
      | (.ok body, s2) => (.ok { props := frame.headerProps, body := body }, s2)
    else (.error .protocolViolation, s1)

/-- CreateMessageReturnedException: capture the reply code/text, exchange
and routing key of the basic.return, reassemble the returned content, and
build the exception value. -/
def CreateMessageReturnedException (return_method : Frame) (channel : Nat) (s : CState) :
    Except Err MessageReturnedExn × CState :=
  match ReadContent channel s with
  | (.error e, s1) => (.error e, s1)
  | (.ok content, s1) =>
    (.ok { message := content, reply_code := return_method.returnReplyCode,
           reply_text := return_method.returnReplyText,
           exchange := return_method.returnExchange,
           routing_key := return_method.returnRoutingKey }, s1)

/-- The expected-reply set of the publish-confirm wait. -/
def PUBLISH_ACK : List Nat :=
  [AMQP_BASIC_ACK_METHOD, AMQP_BASIC_RETURN_METHOD, AMQP_BASIC_NACK_METHOD]

/-- GetAckOnChannel: the publish-confirm wait.  A banked unconsumed_ack is
consumed without touching the transport; otherwise wait for one of
basic.ack / basic.return / basic.nack and handle it as the source does. -/
def GetAckOnChannel (channel : Nat) (s : CState) : Except Err Unit × CState :=
  match listAt s.m_channels channel with
  | none => (.error .outOfRange, s)
  | some st =>
    if 0 < st.unconsumed_ack then
      (.ok (), setChannelState channel { st with unconsumed_ack := st.unconsumed_ack - 1 } s)
    else
      match GetMethodOnChannel [channel] PUBLISH_ACK s with
      | (.error e, s1) => (.error e, s1)
      | (.ok none, s1) => (.error .wouldBlock, s1)
      | (.ok (some response), s1) =>
        if response.methodId == AMQP_BASIC_NACK_METHOD then
          match listAt s1.m_channels channel with
          | none => (.error .outOfRange, s1)
          | some st1 =>
            let s2 := setChannelState channel
              { st1 with last_delivery_tag := response.deliveryTag } s1
            match ReturnChannel channel s2 with
            | (.error e, s3) => (.error e, s3)
            | (.ok _, s3) =>
              (.error (.messageRejected response.deliveryTag),
                MaybeReleaseBuffersOnChannel channel s3)
        else if response.methodId == AMQP_BASIC_RETURN_METHOD then
          match CreateMessageReturnedException response channel s1 with
          | (.error e, s2) => (.error e, s2)
          | (.ok message_returned, s2) =>
            match GetMethodOnChannel [channel] [AMQP_BASIC_ACK_METHOD] s2 with
            | (.error e, s3) => (.error e, s3)
            | (.ok none, s3) => (.error .wouldBlock, s3)
            | (.ok (some _), s3) =>
              match ReturnChannel channel s3 with
              | (.error e, s4) => (.error e, s4)
              | (.ok _, s4) =>
                (.error (.messageReturned message_returned),
                  MaybeReleaseBuffersOnChannel channel s4)
        else
          match listAt s1.m_channels channel with
          | none => (.error .outOfRange, s1)
          | some st1 =>
            let s2 :=
              if response.deliveryTag ≤ st1.last_delivery_tag then s1
              else
                let diff := response.deliveryTag - st1.last_delivery_tag
                let st2 := { st1 with last_delivery_tag := response.deliveryTag }
                setChannelState channel
                  (if 1 < diff then { st2 with unconsumed_ack := diff - 1 } else st2) s1
            match ReturnChannel channel s2 with
            | (.error e, s3) => (.error e, s3)
            | (.ok _, s3) => (.ok (), MaybeReleaseBuffersOnChannel channel s3)

/-- Iterate GetAckOnChannel: n consecutive publish-confirm waits,
stopping at the first failure. -/
def iterGetAck (channel : Nat) : Nat → CState → Except Err Unit × CState
  | 0, s => (.ok (), s)
  | n + 1, s =>
    match GetAckOnChannel channel s with
    | (.ok _, s1) => iterGetAck channel n s1
    | (.error e, s1) => (.error e, s1)

/-- The body-accumulation loop of CheckForQueuedMessageOnChannel: while
fewer bytes than the header declared are accounted for, find the next
queued frame on the channel (the source's find_if skip over other
channels' frames is fused into the recursion), failing the scan when the
queue runs out and raising "Protocol error" on a non-body frame. -/
def checkBody (channel body_length : Nat) : Nat → List Frame → Except Err Bool
  | body_received, [] => if body_length ≤ body_received then .ok true else .ok false
  | body_received, f :: rest =>
    if body_length ≤ body_received then .ok true
    else if f.channel == channel then
      if f.frame_type == AMQP_FRAME_BODY then
        checkBody channel body_length (body_received + f.fragment.length) rest
      else .error .protocolViolation
    else checkBody channel body_length body_received rest

/-- CheckForQueuedMessageOnChannel: does the frame queue now hold a
complete delivery for this channel?  Find the earliest queued
basic.deliver on the channel; the next queued frame on the channel must be
a header (else "Protocol error"); then body frames on the channel must
reach the header's declared body size before the queue runs out. -/
def CheckForQueuedMessageOnChannel (channel : Nat) (q : List Frame) : Except Err Bool :=
  match findFrame (fun f => is_method_on_channel f AMQP_BASIC_DELIVER_METHOD channel) q with
  | none => .ok false
  | some (_, afterDeliver) =>
    match findFrame (fun f => is_on_channel f channel) afterDeliver with
    | none => .ok false
    | some (g, afterHeader) =>
      if g.frame_type == AMQP_FRAME_HEADER then
        checkBody channel g.bodySize 0 afterHeader
      else .error .protocolViolation

/-- Modelled from the spec: the body-extraction half of
ConsumeMessageOnChannelInner (declared outside src): remove the body
frames of the completed delivery from the queue, keeping other channels'
frames in place, until the declared size is reached. -/
def takeBodies (channel body_length : Nat) :
    Nat → List Nat → List Frame → Option (List Nat × List Frame)
  | body_received, acc, [] =>
    if body_length ≤ body_received then some (acc, []) else none
  | body_received, acc, f :: rest =>
    if body_length ≤ body_received then some (acc, f :: rest)
    else if f.channel == channel then
      match f.payload with
      | .body fragment => takeBodies channel body_length (body_received + fragment.length)
          (acc ++ fragment) rest
      | _ => none
    else (takeBodies channel body_length body_received acc rest).map
      (fun pr => (pr.1, f :: pr.2))

/-- Modelled from the spec: extraction of one complete queued delivery —
the earliest basic.deliver on the channel, its following header, and body
frames up to the declared size are pulled out of the queue; every other
frame keeps its position. -/
def extractDelivery (channel : Nat) (q : List Frame) :
    Option (Frame × Nat × List Nat × List Frame) :=
  match splitFirst (fun f => is_method_on_channel f AMQP_BASIC_DELIVER_METHOD channel) q with
  | none => none
  | some (pre1, d, suf1) =>
    match splitFirst (fun f => is_on_channel f channel) suf1 with
    | none => none
    | some (pre2, g, suf2) =>
      match g.payload with
      | .header props body_size =>
        match takeBodies channel body_size 0 [] suf2 with
        | none => none
        | some (body, leftover) => some (d, props, body, pre1 ++ pre2 ++ leftover)
      | _ => none

/-- Modelled from the spec: ConsumeMessageOnChannelInner (declared outside
src) — atomically pull the frames of the now-complete delivery out of the
queue and reassemble them into an envelope. -/
def ConsumeMessageOnChannelInner (channel : Nat) (s : CState) : Option Envelope × CState :=
  match extractDelivery channel s.m_frame_queue with
  | none => (none, s)
  | some (d, props, body, q1) =>
    (some { message := { props := props, body := body },
            consumer_tag := d.deliverConsumerTag,
            delivery_tag := d.deliverDeliveryTag,
            channel := channel },
     { s with m_frame_queue := q1 })

/-- AddToFrameQueue: park the frame, then — if a complete delivery for the
frame's channel has now accumulated — pull it out, reassemble it, and
append it to the delivered-message list. -/
def AddToFrameQueue (frame : Frame) (s : CState) : Except Err Unit × CState :=
  let s1 := { s with m_frame_queue := s.m_frame_queue ++ [frame] }
  match CheckForQueuedMessageOnChannel frame.channel s1.m_frame_queue with
  | .error e => (.error e, s1)
  | .ok false => (.ok (), s1)
  | .ok true =>
    match ConsumeMessageOnChannelInner frame.channel s1 with
    | (none, s2) => (.error .logicError, s2)
    | (some envelope, s2) =>
      (.ok (), { s2 with m_delivered_messages := s2.m_delivered_messages ++ [envelope] })

/-- The projection of the frame queue onto one channel, in queue order. -/
def projOnChannel (channel : Nat) (q : List Frame) : List Frame :=
  q.filter (fun f => f.channel == channel)

/-- A frame that is a basic.deliver method. -/
def isDeliverFrame (f : Frame) : Bool :=
  f.frame_type == AMQP_FRAME_METHOD && f.methodId == AMQP_BASIC_DELIVER_METHOD

/-- Declarative body-total rule over a single channel's frame sequence,
written from the spec: accumulate body frames until the running byte total
reaches the declared size; running out means "not yet complete"; a
non-body frame before then is a protocol violation. -/
def specBodies (body_length : Nat) : Nat → List Frame → Except Err Bool
  | got, [] => if body_length ≤ got then .ok true else .ok false
  | got, f :: rest =>
    if body_length ≤ got then .ok true
    else if f.frame_type == AMQP_FRAME_BODY then
      specBodies body_length (got + f.fragment.length) rest
    else .error .protocolViolation

/-- Declarative completeness rule, written from the spec's detection rule
over the channel's own frame sequence: the earliest still-queued
basic.deliver must be followed by a header frame (else protocol
violation), then by body frames reaching the declared size. -/
def specDeliveryComplete (l : List Frame) : Except Err Bool :=
  match l.dropWhile (fun f => ! isDeliverFrame f) with
  | [] => .ok false
  | _ :: [] => .ok false
  | _ :: g :: rest =>
    if g.frame_type == AMQP_FRAME_HEADER then specBodies g.bodySize 0 rest
    else .error .protocolViolation

/-- GetNextChannelId: reuse the first Closed slot, else grow the table by
one Closed slot unless the negotiated channel-max (0 meaning the protocol
default 65535) is already exceeded. -/
def GetNextChannelId (s : CState) : Except Err Nat × CState :=
  match findFirstIdx (fun st => st.availability == Availability.CS_Closed) s.m_channels with
  | some i => (.ok i, s)
  | none =>
    let max_channels := if s.channel_max == 0 then 65535 else s.channel_max
    if max_channels < s.m_channels.length then (.error .tooManyChannels, s)
    else
      (.ok s.m_channels.length,
        { s with m_channels := s.m_channels ++ [{ availability := .CS_Closed }] })

/-- Modelled from the spec: DoRpcOnChannel (declared in the missing
ChannelImpl.h) — send the request method on the channel, then wait via the
engine's matching primitive for a reply whose method id is in the
expected set. -/
def DoRpcOnChannel (channel methodId : Nat) (expected : List Nat) (s : CState) :
    Except Err Frame × CState :=
  let s0 := sendMethod channel methodId s
  match GetMethodOnChannel [channel] expected s0 with
  | (.error e, s1) => (.error e, s1)
  | (.ok none, s1) => (.error .wouldBlock, s1)
  | (.ok (some f), s1) => (.ok f, s1)

/-- CreateNewChannel: allocate an id, run the channel.open and
confirm.select RPCs, and mark the slot Open. -/
def CreateNewChannel (s : CState) : Except Err Nat × CState :=
  match GetNextChannelId s with
  | (.error e, s1) => (.error e, s1)
  | (.ok new_channel, s1) =>
    match DoRpcOnChannel new_channel AMQP_CHANNEL_OPEN_METHOD [AMQP_CHANNEL_OPEN_OK_METHOD] s1 with
    | (.error e, s2) => (.error e, s2)
    | (.ok _, s2) =>
      match DoRpcOnChannel new_channel AMQP_CONFIRM_SELECT_METHOD
          [AMQP_CONFIRM_SELECT_OK_METHOD] s2 with
      | (.error e, s3) => (.error e, s3)
      | (.ok _, s3) =>
        match listAt s3.m_channels new_channel with
        | none => (.error .outOfRange, s3)
        | some st => (.ok new_channel, setChannelState new_channel
            { st with availability := .CS_Open } s3)

/-- GetChannel: prefer the last-used channel when Open, else the first
Open slot, else open a brand-new channel; the returned channel is marked
Used. -/
def GetChannel (s : CState) : Except Err Nat × CState :=
  match listAt s.m_channels s.m_last_used_channel with
  | none => (.error .outOfRange, s)
  | some st =>
    if st.availability == Availability.CS_Open then
      (.ok s.m_last_used_channel,
        setChannelState s.m_last_used_channel { st with availability := .CS_Used } s)
    else
      match findFirstIdx (fun st => st.availability == Availability.CS_Open) s.m_channels with
      | some i =>
        match listAt s.m_channels i with
        | none => (.error .outOfRange, s)
        | some sti => (.ok i, setChannelState i { sti with availability := .CS_Used } s)
      | none =>
        match CreateNewChannel s with
        | (.error e, s1) => (.error e, s1)
        | (.ok new_channel, s1) =>
          match listAt s1.m_channels new_channel with
          | none => (.error .outOfRange, s1)
          | some stn => (.ok new_channel, setChannelState new_channel
              { stn with availability := .CS_Used } s1)

/-- The splitting loop of splitVersion: cut the version string at every
dot, keeping empty pieces. -/
def splitVersionAux : List Char → List Char → List (List Char)
  | [], acc => [acc.reverse]
  | ch :: rest, acc =>
    if ch = '.' then acc.reverse :: splitVersionAux rest []
    else splitVersionAux rest (ch :: acc)

/-- splitVersion: split the broker version string on dots. -/
def splitVersion (version : List Char) : List (List Char) :=
  splitVersionAux version []

/-- Accumulate the value of a digit run. -/
def digitsVal : List Char → Nat → Nat
  | [], acc => acc
  | ch :: rest, acc => digitsVal rest (acc * 10 + (ch.toNat - 48))

/-- Model of std::stoul on a 64-bit unsigned long: skip leading spaces,
accept an optional sign, then require at least one digit (else
std::invalid_argument); a value beyond ULONG_MAX is std::out_of_range; a
negative sign wraps modulo 2^64. -/
def stoulModel (v : List Char) : Except Err Nat :=
  let t := v.dropWhile (fun ch => ch = ' ')
  let signed : Bool × List Char :=
    match t with
    | '+' :: r => (false, r)
    | '-' :: r => (true, r)
    | _ => (false, t)
  let ds := signed.2.takeWhile Char.isDigit
  if ds.isEmpty then .error .invalidArgument
  else
    let n := digitsVal ds 0
    if 2 ^ 64 ≤ n then .error .stoulOutOfRange
    else .ok (if signed.1 then (2 ^ 64 - n) % 2 ^ 64 else n)

/-- The linear scan of the server-properties table for the "version" key. -/
def lookupVersion : List (List Char × List Char) → Option (List Char)
  | [] => none
  | (k, v) :: rest => if k = "version".toList then some v else lookupVersion rest

/-- ComputeBrokerVersion: find the "version" server property (0 if
absent), split it on dots (0 unless exactly three components), parse each
component with std::stoul into a uint32, and pack the low bytes as
major.minor.patch into 24 bits. -/
def ComputeBrokerVersion (properties : List (List Char × List Char)) : Except Err Nat :=
  match lookupVersion properties with
  | none => .ok 0
  | some version_string =>
    match splitVersion version_string with
    | [c0, c1, c2] =>
      match stoulModel c0 with
      | .error e => .error e
      | .ok major64 =>
        match stoulModel c1 with
        | .error e => .error e
        | .ok minor64 =>
          match stoulModel c2 with
          | .error e => .error e
          | .ok patch64 =>
            let version_major := major64 % 2 ^ 32
            let version_minor := minor64 % 2 ^ 32
            let version_patch := patch64 % 2 ^ 32
            .ok ((((version_major &&& 255) <<< 16) ||| ((version_minor &&& 255) <<< 8)) |||
              (version_patch &&& 255))
    | _ => .ok 0

/-- A concrete pool state with one reusable Closed slot, for witnesses. -/
def poolExample : CState :=
  { m_channels := [{ availability := .CS_Used }, { availability := .CS_Closed }],
    m_last_used_channel := 0, m_is_connected := true, m_frame_queue := [],
    m_delivered_messages := [], channel_max := 0, incoming := [],
    sent_methods := [], released_channels := [] }

/-- A concrete pool state with two Used slots, for witnesses. -/
def poolExample2 : CState :=
  { m_channels := [{ availability := .CS_Used }, { availability := .CS_Used }],
    m_last_used_channel := 0, m_is_connected := true, m_frame_queue := [],
    m_delivered_messages := [], channel_max := 0, incoming := [],
    sent_methods := [], released_channels := [] }

attribute [simp] AMQP_FRAME_METHOD AMQP_FRAME_HEADER AMQP_FRAME_BODY
  AMQP_BASIC_DELIVER_METHOD AMQP_BASIC_ACK_METHOD AMQP_BASIC_NACK_METHOD
  AMQP_BASIC_RETURN_METHOD AMQP_CHANNEL_CLOSE_METHOD AMQP_CHANNEL_CLOSE_OK_METHOD
  AMQP_CONNECTION_CLOSE_METHOD AMQP_CONNECTION_CLOSE_OK_METHOD
  AMQP_CHANNEL_OPEN_METHOD AMQP_CHANNEL_OPEN_OK_METHOD
  AMQP_CONFIRM_SELECT_METHOD AMQP_CONFIRM_SELECT_OK_METHOD

/-- A concrete confirm-mode state: channel 1 in use, empty frame queue,
the given frames pending on the transport; for witnesses. -/
def confirmExample (frames : List Frame) : CState :=
  { m_channels := [{ availability := .CS_Used }, { availability := .CS_Used }],
    m_last_used_channel := 0, m_is_connected := true, m_frame_queue := [],
    m_delivered_messages := [], channel_max := 0, incoming := frames,
    sent_methods := [], released_channels := [] }

/-- Byte total of a list of body fragments. -/
def fragsSum : List (List Nat) → Nat
  | [] => 0
  | fr :: rest => fr.length + fragsSum rest

/-- Concatenation of body fragments in arrival order. -/
def fragsConcat : List (List Nat) → List Nat
  | [] => []
  | fr :: rest => fr ++ fragsConcat rest

/-- The body frames carrying the given fragments on one channel. -/
def bodyFrames (channel : Nat) : List (List Nat) → List Frame
  | [] => []
  | fr :: rest => ⟨channel, .body fr⟩ :: bodyFrames channel rest

/-- A concrete state whose confirm channel already banked unconsumed
acknowledgements, for the fast-path counterexample. -/
def bankedExample : CState :=
  { m_channels := [{ availability := .CS_Used },
      { availability := .CS_Used, last_delivery_tag := 5, unconsumed_ack := 2 }],
    m_last_used_channel := 0, m_is_connected := true, m_frame_queue := [],
    m_delivered_messages := [], channel_max := 0, incoming := [],
    sent_methods := [], released_channels := [] }

/-- A concrete state with the given frames already parked in the frame
queue, for witnesses and counterexamples. -/
def queueExample (q : List Frame) : CState :=
  { m_channels := [{ availability := .CS_Used }, { availability := .CS_Used }],
    m_last_used_channel := 0, m_is_connected := true, m_frame_queue := q,
    m_delivered_messages := [], channel_max := 0, incoming := [],
    sent_methods := [], released_channels := [] }

theorem get?_set_self {α : Type} : ∀ (l : List α) (i : Nat) (a : α), i < l.length →
    (l.set i a).get? i = some a
  | [], i, a, h => absurd h (by simp)
  | _ :: _, 0, a, _ => rfl
  | _ :: xs, i + 1, a, h => get?_set_self xs i a (Nat.lt_of_succ_lt_succ h)

theorem get?_set_ne {α : Type} : ∀ (l : List α) (i j : Nat) (a : α), i ≠ j →
    (l.set i a).get? j = l.get? j
  | [], _, _, _, _ => by simp
  | _ :: _, 0, 0, _, h => absurd rfl h
  | _ :: _, 0, _ + 1, _, _ => rfl
  | _ :: _, _ + 1, 0, _, _ => rfl
  | _ :: xs, i + 1, j + 1, a, h =>
    get?_set_ne xs i j a (fun he => h (congrArg (· + 1) he))

theorem get?_lt {α : Type} : ∀ (l : List α) (i : Nat), i < l.length → ∃ a, l.get? i = some a
  | [], i, h => absurd h (by simp)
  | x :: _, 0, _ => ⟨x, rfl⟩
  | _ :: xs, i + 1, h => get?_lt xs i (Nat.lt_of_succ_lt_succ h)

theorem findFirstIdx_none_iff (p : channel_state_t → Bool) :
    ∀ l, findFirstIdx p l = none ↔ ∀ st ∈ l, p st = false := by
  intro l
  induction l with
  | nil => simp [findFirstIdx]
  | cons st rest ih =>
    by_cases hp : p st = true
    · simp [findFirstIdx, hp]
    · simp only [Bool.not_eq_true] at hp
      simp [findFirstIdx, hp, Option.map_eq_none, ih]

theorem findFirstIdx_some_mem (p : channel_state_t → Bool) :
    ∀ l i, findFirstIdx p l = some i → ∃ h : i < l.length, p (l.get ⟨i, h⟩) = true := by
  intro l
  induction l with
  | nil => intro i h; simp [findFirstIdx] at h
  | cons st rest ih =>
    intro i h
    by_cases hp : p st = true
    · rw [findFirstIdx, if_pos hp] at h
      simp only [Option.some.injEq] at h
      subst h
      exact ⟨Nat.succ_pos _, hp⟩
    · rw [findFirstIdx, if_neg hp] at h
      cases hr : findFirstIdx p rest with
      | none => rw [hr] at h; simp at h
      | some j =>
        rw [hr] at h
        simp at h
        subst h
        obtain ⟨hlt, hpj⟩ := ih j hr
        exact ⟨Nat.succ_lt_succ hlt, hpj⟩

/-- Claim C7: channel-id allocation fails with TooManyChannels exactly
when no slot is Closed and the table size already exceeds the negotiated
channel-max (0 meaning the protocol default 65535); otherwise it returns
the index of a Closed slot, or of one newly appended Closed slot. -/
theorem claim_C7 (s : CState) :
    (((GetNextChannelId s).1 = Except.error Err.tooManyChannels) ↔
      ((∀ st ∈ s.m_channels, st.availability ≠ Availability.CS_Closed) ∧
        (if s.channel_max = 0 then 65535 else s.channel_max) < s.m_channels.length)) ∧
    (∀ i s', GetNextChannelId s = (Except.ok i, s') →
      (∃ h : i < s.m_channels.length,
        (s.m_channels.get ⟨i, h⟩).availability = Availability.CS_Closed ∧ s' = s) ∨
      (i = s.m_channels.length ∧
        s'.m_channels = s.m_channels ++ [{ availability := Availability.CS_Closed }])) := by
  have hif : (if s.channel_max == 0 then (65535 : Nat) else s.channel_max) =
      (if s.channel_max = 0 then (65535 : Nat) else s.channel_max) := by
    by_cases h0 : s.channel_max = 0 <;> simp [h0]
  cases hf : findFirstIdx (fun st => st.availability == Availability.CS_Closed) s.m_channels with
  | some i0 =>
    obtain ⟨hlt, hp⟩ := findFirstIdx_some_mem _ _ _ hf
    constructor
    · constructor
      · intro hcontra
        simp [GetNextChannelId, hf] at hcontra
      · rintro ⟨hall2, -⟩
        exact absurd (beq_iff_eq.mp hp) (hall2 _ (List.get_mem s.m_channels i0 hlt))
    · intro i s' h
      simp only [GetNextChannelId, hf, Prod.mk.injEq, Except.ok.injEq] at h
      obtain ⟨rfl, rfl⟩ := h
      exact Or.inl ⟨hlt, beq_iff_eq.mp hp, rfl⟩
  | none =>
    have hall : ∀ st ∈ s.m_channels, st.availability ≠ Availability.CS_Closed := by
      intro st hm he
      have hx := (findFirstIdx_none_iff _ _).mp hf st hm
      rw [he] at hx
      simp at hx
    by_cases hlt : (if s.channel_max = 0 then (65535 : Nat) else s.channel_max) <
        s.m_channels.length
    · constructor
      · constructor
        · intro _
          exact ⟨hall, hlt⟩
        · intro _
          simp [GetNextChannelId, hf, hif, hlt]
      · intro i s' h
        simp [GetNextChannelId, hf, hif, hlt] at h
    · constructor
      · constructor
        · intro hcontra
          simp [GetNextChannelId, hf, hif, hlt] at hcontra
        · rintro ⟨-, hc⟩
          exact absurd hc hlt
      · intro i s' h
        simp only [GetNextChannelId, hf, hif, if_neg hlt, Prod.mk.injEq, Except.ok.injEq] at h
        obtain ⟨rfl, h2⟩ := h
        exact Or.inr ⟨rfl, by rw [← h2]⟩

/-- Witness for claim C7 at a pool with a reusable Closed slot. -/
theorem claim_C7_witness :
    (∃ h : 1 < poolExample.m_channels.length,
      (poolExample.m_channels.get ⟨1, h⟩).availability = Availability.CS_Closed ∧
        poolExample = poolExample) ∨
    (1 = poolExample.m_channels.length ∧
      poolExample.m_channels = poolExample.m_channels ++
        [{ availability := Availability.CS_Closed }]) :=
  (claim_C7 poolExample).2 1 poolExample (by rfl)

/-- Claim C9: after ReturnChannel(c), an immediate GetChannel() with no
intervening state change returns c and marks its slot Used. -/
theorem claim_C9 (s : CState) (c : Nat) (h : c < s.m_channels.length) :
    ∃ st s1 s2, s.m_channels.get? c = some st ∧
      ReturnChannel c s = (Except.ok (), s1) ∧
      GetChannel s1 = (Except.ok c, s2) ∧
      s2.m_channels.get? c = some { st with availability := Availability.CS_Used } := by
  obtain ⟨st, hst⟩ := get?_lt s.m_channels c h
  have h1 : ReturnChannel c s =
      (Except.ok (), { setChannelState c { st with availability := Availability.CS_Open } s with
        m_last_used_channel := c }) := by
    simp only [ReturnChannel, listAt, hst]
  have hget : (s.m_channels.set c { st with availability := Availability.CS_Open }).get? c =
      some { st with availability := Availability.CS_Open } := get?_set_self _ _ _ h
  have h2 : GetChannel { setChannelState c { st with availability := Availability.CS_Open } s with
      m_last_used_channel := c } =
      (Except.ok c, setChannelState c { st with availability := Availability.CS_Used }
        { setChannelState c { st with availability := Availability.CS_Open } s with
          m_last_used_channel := c }) := by
    simp only [GetChannel, listAt, setChannelState, hget]
    rfl
  refine ⟨st, _, _, hst, h1, h2, ?_⟩
  simp only [setChannelState, List.set_set]
  exact get?_set_self _ _ _ h

/-- Witness for claim C9 on a two-slot pool. -/
theorem claim_C9_witness :
    ∃ st s1 s2, poolExample2.m_channels.get? 1 = some st ∧
      ReturnChannel 1 poolExample2 = (Except.ok (), s1) ∧
      GetChannel s1 = (Except.ok 1, s2) ∧
      s2.m_channels.get? 1 = some { st with availability := Availability.CS_Used } :=
  claim_C9 poolExample2 1 (by decide)

theorem maskMod32 (x : Nat) : (x % 2 ^ 32) &&& 255 = x &&& 255 := by
  have h255 : (255 : Nat) = 2 ^ 8 - 1 := by norm_num
  rw [h255, Nat.and_pow_two_sub_one_eq_mod, Nat.and_pow_two_sub_one_eq_mod,
    Nat.mod_mod_of_dvd x (by norm_num : (2 ^ 8 : Nat) ∣ 2 ^ 32)]

/-- Claim C8 counterexample: a version string with exactly three
dot-components one of which is non-numeric does not make
ComputeBrokerVersion return 0 — the std::stoul failure escapes instead. -/
theorem claim_C8_counterexample :
    ComputeBrokerVersion [("version".toList, "1.2.x".toList)] =
        Except.error Err.invalidArgument ∧
      ComputeBrokerVersion [("version".toList, "1.2.x".toList)] ≠ Except.ok 0 := by
  constructor
  · rfl
  · intro h
    rw [show ComputeBrokerVersion [("version".toList, "1.2.x".toList)] =
        Except.error Err.invalidArgument from rfl] at h
    exact Except.noConfusion h

/-- Claim C8 as amended: ComputeBrokerVersion returns 0 when the version
entry is absent or does not split into exactly three dot-components; when
it does, each component is parsed with std::stoul — on success the packed
24-bit (major, minor, patch) value is returned, and a stoul parse failure
propagates as an exception instead of returning 0. -/
theorem claim_C8_amended (props : List (List Char × List Char)) :
    (lookupVersion props = none → ComputeBrokerVersion props = Except.ok 0) ∧
    (∀ ver, lookupVersion props = some ver →
      (∀ a b c, splitVersion ver ≠ [a, b, c]) → ComputeBrokerVersion props = Except.ok 0) ∧
    (∀ ver a b c x y z, lookupVersion props = some ver → splitVersion ver = [a, b, c] →
      stoulModel a = Except.ok x → stoulModel b = Except.ok y → stoulModel c = Except.ok z →
      ComputeBrokerVersion props =
        Except.ok ((((x &&& 255) <<< 16) ||| ((y &&& 255) <<< 8)) ||| (z &&& 255))) ∧
    (∀ ver a b c e, lookupVersion props = some ver → splitVersion ver = [a, b, c] →
      stoulModel a = Except.error e → ComputeBrokerVersion props = Except.error e) := by
  refine ⟨?_, ?_, ?_, ?_⟩
  · intro hlook
    simp only [ComputeBrokerVersion, hlook]
  · intro ver hlook hne
    cases hs : splitVersion ver with
    | nil => simp only [ComputeBrokerVersion, hlook, hs]
    | cons a t1 =>
      cases t1 with
      | nil => simp only [ComputeBrokerVersion, hlook, hs]
      | cons b t2 =>
        cases t2 with
        | nil => simp only [ComputeBrokerVersion, hlook, hs]
        | cons c t3 =>
          cases t3 with
          | nil => exact absurd hs (hne a b c)
          | cons d t4 => simp only [ComputeBrokerVersion, hlook, hs]
  · intro ver a b c x y z hlook hs ha hb hc
    simp only [ComputeBrokerVersion, hlook, hs, ha, hb, hc, maskMod32]
  · intro ver a b c e hlook hs ha
    simp only [ComputeBrokerVersion, hlook, hs, ha]

/-- Witness for claim C8 as amended, on the version string 3.8.1. -/
theorem claim_C8_amended_witness :
    ComputeBrokerVersion [("version".toList, "3.8.1".toList)] =
      Except.ok ((((3 &&& 255) <<< 16) ||| ((8 &&& 255) <<< 8)) ||| (1 &&& 255)) :=
  (claim_C8_amended [("version".toList, "3.8.1".toList)]).2.2.1 "3.8.1".toList
    "3".toList "8".toList "1".toList 3 8 1 rfl rfl rfl rfl rfl

theorem get?_some_lt {α : Type} : ∀ (l : List α) (i : Nat) (a : α), l.get? i = some a →
    i < l.length
  | [], i, a, h => by simp [List.get?] at h
  | _ :: _, 0, _, _ => Nat.succ_pos _
  | _ :: xs, i + 1, a, h => Nat.succ_lt_succ (get?_some_lt xs i a h)

theorem CheckFrameForClose_not_close (f : Frame) (ch : Nat) (s : CState)
    (h : isCloseMethodFrame f = false) : CheckFrameForClose f ch s = (.ok (), s) := by
  obtain ⟨c, p⟩ := f
  cases p with
  | method m =>
    cases m with
    | channelClose rc rt => simp [isCloseMethodFrame, Frame.frame_type, Frame.methodId, Frame.deliveryTag, Frame.bodySize, Frame.headerProps, Frame.fragment, Frame.returnReplyCode, Frame.returnReplyText, Frame.returnExchange, Frame.returnRoutingKey, Frame.closeReplyCode, Frame.closeReplyText, AmqpMethod.id] at h
    | connectionClose rc rt => simp [isCloseMethodFrame, Frame.frame_type, Frame.methodId, Frame.deliveryTag, Frame.bodySize, Frame.headerProps, Frame.fragment, Frame.returnReplyCode, Frame.returnReplyText, Frame.returnExchange, Frame.returnRoutingKey, Frame.closeReplyCode, Frame.closeReplyText, AmqpMethod.id] at h
    | other n =>
      simp [isCloseMethodFrame, Frame.frame_type, Frame.methodId, Frame.deliveryTag, Frame.bodySize, Frame.headerProps, Frame.fragment, Frame.returnReplyCode, Frame.returnReplyText, Frame.returnExchange, Frame.returnRoutingKey, Frame.closeReplyCode, Frame.closeReplyText, AmqpMethod.id] at h
      simp [CheckFrameForClose, Frame.frame_type, Frame.methodId, Frame.deliveryTag, Frame.bodySize, Frame.headerProps, Frame.fragment, Frame.returnReplyCode, Frame.returnReplyText, Frame.returnExchange, Frame.returnRoutingKey, Frame.closeReplyCode, Frame.closeReplyText, AmqpMethod.id, h.1, h.2]
    | basicDeliver ct dt => simp [CheckFrameForClose, Frame.frame_type, Frame.methodId, Frame.deliveryTag, Frame.bodySize, Frame.headerProps, Frame.fragment, Frame.returnReplyCode, Frame.returnReplyText, Frame.returnExchange, Frame.returnRoutingKey, Frame.closeReplyCode, Frame.closeReplyText, AmqpMethod.id]
    | basicAck t mu => simp [CheckFrameForClose, Frame.frame_type, Frame.methodId, Frame.deliveryTag, Frame.bodySize, Frame.headerProps, Frame.fragment, Frame.returnReplyCode, Frame.returnReplyText, Frame.returnExchange, Frame.returnRoutingKey, Frame.closeReplyCode, Frame.closeReplyText, AmqpMethod.id]
    | basicNack t mu rq => simp [CheckFrameForClose, Frame.frame_type, Frame.methodId, Frame.deliveryTag, Frame.bodySize, Frame.headerProps, Frame.fragment, Frame.returnReplyCode, Frame.returnReplyText, Frame.returnExchange, Frame.returnRoutingKey, Frame.closeReplyCode, Frame.closeReplyText, AmqpMethod.id]
    | basicReturn rc rt ex rk => simp [CheckFrameForClose, Frame.frame_type, Frame.methodId, Frame.deliveryTag, Frame.bodySize, Frame.headerProps, Frame.fragment, Frame.returnReplyCode, Frame.returnReplyText, Frame.returnExchange, Frame.returnRoutingKey, Frame.closeReplyCode, Frame.closeReplyText, AmqpMethod.id]
  | header pr n => simp [CheckFrameForClose, Frame.frame_type, Frame.methodId, Frame.deliveryTag, Frame.bodySize, Frame.headerProps, Frame.fragment, Frame.returnReplyCode, Frame.returnReplyText, Frame.returnExchange, Frame.returnRoutingKey, Frame.closeReplyCode, Frame.closeReplyText, AmqpMethod.id]
  | body b => simp [CheckFrameForClose, Frame.frame_type, Frame.methodId, Frame.deliveryTag, Frame.bodySize, Frame.headerProps, Frame.fragment, Frame.returnReplyCode, Frame.returnReplyText, Frame.returnExchange, Frame.returnRoutingKey, Frame.closeReplyCode, Frame.closeReplyText, AmqpMethod.id]

theorem GetMethodOnChannel_head (chans : List Nat) (exp : List Nat) (s : CState)
    (f : Frame) (rest : List Frame)
    (hq : s.m_frame_queue = []) (hin : s.incoming = f :: rest)
    (hnc : isCloseMethodFrame f = false)
    (hm : matchesWait f chans (some exp) = true) :
    GetMethodOnChannel chans exp s = (.ok (some f), { s with incoming := rest }) := by
  simp only [GetMethodOnChannel, hq, extractFirst]
  rw [hin]
  simp only [awaitLoopAux]
  rw [CheckFrameForClose_not_close f f.channel _ hnc]
  simp [hm, hq]

theorem GetNextFrameOnChannel_broker_head (c : Nat) (s : CState) (f : Frame) (rest : List Frame)
    (hq : s.m_frame_queue = []) (hin : s.incoming = f :: rest)
    (hnc : isCloseMethodFrame f = false) (hch : f.channel = c) :
    GetNextFrameOnChannel c s = (.ok (some f), { s with incoming := rest }) := by
  simp only [GetNextFrameOnChannel, hq, extractFirst, GetNextFrameFromBrokerOnChannel]
  rw [hin]
  simp only [awaitLoopAux]
  rw [CheckFrameForClose_not_close f f.channel _ hnc]
  simp [matchesWait, hch, hq]

theorem iterGetAck_fast (c : Nat) : ∀ (n : Nat) (s : CState) (avail : Availability)
    (T u : Nat) (drt : String),
    s.m_channels.get? c = some ⟨avail, T, u, drt⟩ → n ≤ u →
    ∃ sn, iterGetAck c n s = (.ok (), sn) ∧
      sn.m_channels.get? c = some ⟨avail, T, u - n, drt⟩ ∧
      sn.m_frame_queue = s.m_frame_queue ∧ sn.incoming = s.incoming ∧
      sn.m_last_used_channel = s.m_last_used_channel ∧
      sn.released_channels = s.released_channels := by
  intro n
  induction n with
  | zero => exact fun s avail T u drt hget _ => ⟨s, rfl, by simpa using hget, rfl, rfl, rfl, rfl⟩
  | succ n ih =>
    intro s avail T u drt hget hn
    have hpos : 0 < u := Nat.lt_of_lt_of_le (Nat.succ_pos n) hn
    have hstep : GetAckOnChannel c s =
        (.ok (), setChannelState c ⟨avail, T, u - 1, drt⟩ s) := by
      simp only [GetAckOnChannel, listAt, hget]
      rw [if_pos hpos]
    have hget2 : (setChannelState c ⟨avail, T, u - 1, drt⟩ s).m_channels.get? c =
        some ⟨avail, T, u - 1, drt⟩ :=
      get?_set_self _ _ _ (get?_some_lt _ _ _ hget)
    obtain ⟨sn, h1, h2, h3, h4, h5, h6⟩ := ih (setChannelState c ⟨avail, T, u - 1, drt⟩ s)
      avail T (u - 1) drt hget2 (by omega)
    refine ⟨sn, ?_, ?_, h3, h4, h5, h6⟩
    · simp only [iterGetAck, hstep, h1]
    · rw [h2]
      congr 2
      omega

theorem GetAckOnChannel_ack_run (s : CState) (c T0 T : Nat) (avail : Availability)
    (drt : String) (mult : Bool) (rest : List Frame)
    (hget : s.m_channels.get? c = some ⟨avail, T0, 0, drt⟩)
    (hq : s.m_frame_queue = [])
    (hin : s.incoming = ⟨c, .method (.basicAck T mult)⟩ :: rest)
    (hT : T0 < T) :
    GetAckOnChannel c s = (Except.ok (),
      { s with m_channels := s.m_channels.set c ⟨Availability.CS_Open, T, T - T0 - 1, drt⟩,
               m_last_used_channel := c,
               incoming := rest,
               released_channels := s.released_channels ++ [c] }) := by
  have hlt : c < s.m_channels.length := get?_some_lt _ _ _ hget
  have hwait := GetMethodOnChannel_head [c] PUBLISH_ACK s
    ⟨c, .method (.basicAck T mult)⟩ rest hq hin (by simp [isCloseMethodFrame, Frame.frame_type, Frame.methodId, Frame.deliveryTag, Frame.bodySize, Frame.headerProps, Frame.fragment, Frame.returnReplyCode, Frame.returnReplyText, Frame.returnExchange, Frame.returnRoutingKey, Frame.closeReplyCode, Frame.closeReplyText, AmqpMethod.id])
    (by simp [matchesWait, PUBLISH_ACK, Frame.frame_type, Frame.methodId, Frame.deliveryTag, Frame.bodySize, Frame.headerProps, Frame.fragment, Frame.returnReplyCode, Frame.returnReplyText, Frame.returnExchange, Frame.returnRoutingKey, Frame.closeReplyCode, Frame.closeReplyText, AmqpMethod.id])
  by_cases hd : 1 < T - T0
  · simp only [GetAckOnChannel, listAt, hget, hwait]
    simp [hd, Nat.not_le.mpr hT, ReturnChannel, listAt, setChannelState, hlt,
      MaybeReleaseBuffersOnChannel, findFrame, hq, Frame.frame_type, Frame.methodId, Frame.deliveryTag, Frame.bodySize, Frame.headerProps, Frame.fragment, Frame.returnReplyCode, Frame.returnReplyText, Frame.returnExchange, Frame.returnRoutingKey, Frame.closeReplyCode, Frame.closeReplyText, AmqpMethod.id]
  · have h0 : T - T0 - 1 = 0 := by omega
    rw [h0]
    simp only [GetAckOnChannel, listAt, hget, hwait]
    simp [hd, Nat.not_le.mpr hT, ReturnChannel, listAt, setChannelState, hlt,
      MaybeReleaseBuffersOnChannel, findFrame, hq, Frame.frame_type, Frame.methodId, Frame.deliveryTag, Frame.bodySize, Frame.headerProps, Frame.fragment, Frame.returnReplyCode, Frame.returnReplyText, Frame.returnExchange, Frame.returnRoutingKey, Frame.closeReplyCode, Frame.closeReplyText, AmqpMethod.id]

/-- Claim C1: on a channel with unconsumed_ack = 0 and
last_delivery_tag = T0, a publish-confirm wait that observes a basic.ack
with delivery tag T > T0 succeeds, leaving last_delivery_tag = T and
unconsumed_ack = T - T0 - 1, and each of the next T - T0 - 1
publish-confirm waits on that channel succeeds by decrementing
unconsumed_ack without reading the transport stream or the frame queue. -/
theorem claim_C1 (s : CState) (c T0 T : Nat) (avail : Availability) (drt : String)
    (mult : Bool) (rest : List Frame)
    (hget : s.m_channels.get? c = some ⟨avail, T0, 0, drt⟩)
    (hq : s.m_frame_queue = [])
    (hin : s.incoming = ⟨c, .method (.basicAck T mult)⟩ :: rest)
    (hT : T0 < T) :
    ∃ s1, GetAckOnChannel c s = (Except.ok (), s1) ∧
      s1.m_channels.get? c = some ⟨Availability.CS_Open, T, T - T0 - 1, drt⟩ ∧
      s1.m_frame_queue = [] ∧ s1.incoming = rest ∧
      (∀ n, n ≤ T - T0 - 1 → ∃ sn, iterGetAck c n s1 = (Except.ok (), sn) ∧
        sn.m_channels.get? c = some ⟨Availability.CS_Open, T, T - T0 - 1 - n, drt⟩ ∧
        sn.m_frame_queue = s1.m_frame_queue ∧ sn.incoming = s1.incoming) := by
  have hlt : c < s.m_channels.length := get?_some_lt _ _ _ hget
  have hrun := GetAckOnChannel_ack_run s c T0 T avail drt mult rest hget hq hin hT
  refine ⟨_, hrun, ?_, ?_, rfl, ?_⟩
  · exact get?_set_self _ _ _ hlt
  · exact hq
  · intro n hn
    have hget1 := get?_set_self s.m_channels c ⟨Availability.CS_Open, T, T - T0 - 1, drt⟩ hlt
    obtain ⟨sn, h1, h2, h3, h4, h5, h6⟩ := iterGetAck_fast c n
      (CState.mk (s.m_channels.set c ⟨Availability.CS_Open, T, T - T0 - 1, drt⟩)
        c s.m_is_connected s.m_frame_queue s.m_delivered_messages s.channel_max
        rest s.sent_methods (s.released_channels ++ [c]))
      Availability.CS_Open T (T - T0 - 1) drt hget1 hn
    exact ⟨sn, h1, h2, h3, h4⟩

/-- Witness for claim C1: a fresh channel receives a cumulative ack with
tag 3, banking two further confirmations. -/
theorem claim_C1_witness :
    ∃ s1, GetAckOnChannel 1 (confirmExample [⟨1, .method (.basicAck 3 false)⟩]) =
        (Except.ok (), s1) ∧
      s1.m_channels.get? 1 = some ⟨Availability.CS_Open, 3, 3 - 0 - 1, ""⟩ ∧
      s1.m_frame_queue = [] ∧ s1.incoming = [] ∧
      (∀ n, n ≤ 3 - 0 - 1 → ∃ sn, iterGetAck 1 n s1 = (Except.ok (), sn) ∧
        sn.m_channels.get? 1 = some ⟨Availability.CS_Open, 3, 3 - 0 - 1 - n, ""⟩ ∧
        sn.m_frame_queue = s1.m_frame_queue ∧ sn.incoming = s1.incoming) :=
  claim_C1 (confirmExample [⟨1, .method (.basicAck 3 false)⟩]) 1 0 3 Availability.CS_Used ""
    false [] rfl rfl rfl (by decide)

/-- The full run of the publish-confirm wait on a basic.nack response. -/
theorem GetAckOnChannel_nack_run (s : CState) (c t T0 : Nat) (avail : Availability)
    (drt : String) (mult requeue : Bool) (rest : List Frame)
    (hget : s.m_channels.get? c = some ⟨avail, T0, 0, drt⟩)
    (hq : s.m_frame_queue = [])
    (hin : s.incoming = ⟨c, .method (.basicNack t mult requeue)⟩ :: rest) :
    GetAckOnChannel c s = (Except.error (Err.messageRejected t),
      { s with m_channels := s.m_channels.set c ⟨Availability.CS_Open, t, 0, drt⟩,
               m_last_used_channel := c,
               incoming := rest,
               released_channels := s.released_channels ++ [c] }) := by
  have hlt : c < s.m_channels.length := get?_some_lt _ _ _ hget
  have hwait := GetMethodOnChannel_head [c] PUBLISH_ACK s
    ⟨c, .method (.basicNack t mult requeue)⟩ rest hq hin
    (by simp [isCloseMethodFrame, Frame.frame_type, Frame.methodId, Frame.deliveryTag, Frame.bodySize, Frame.headerProps, Frame.fragment, Frame.returnReplyCode, Frame.returnReplyText, Frame.returnExchange, Frame.returnRoutingKey, Frame.closeReplyCode, Frame.closeReplyText, AmqpMethod.id])
    (by simp [matchesWait, PUBLISH_ACK, Frame.frame_type, Frame.methodId, Frame.deliveryTag, Frame.bodySize, Frame.headerProps, Frame.fragment, Frame.returnReplyCode, Frame.returnReplyText, Frame.returnExchange, Frame.returnRoutingKey, Frame.closeReplyCode, Frame.closeReplyText, AmqpMethod.id])
  simp only [GetAckOnChannel, listAt, hget, hwait]
  simp [ReturnChannel, listAt, setChannelState, hlt,
    MaybeReleaseBuffersOnChannel, findFrame, hq, Frame.frame_type, Frame.methodId, Frame.deliveryTag, Frame.bodySize, Frame.headerProps, Frame.fragment, Frame.returnReplyCode, Frame.returnReplyText, Frame.returnExchange, Frame.returnRoutingKey, Frame.closeReplyCode, Frame.closeReplyText, AmqpMethod.id]

/-- Claim C6: a publish-confirm wait observing a basic.nack with delivery
tag t records last_delivery_tag = t, leaves the channel Open (returned to
the pool, recorded as most recently used), and fails with
MessageNackedByBroker carrying t; exactly one failure is raised for the
one observed nack frame whatever its cumulative flag says. -/
theorem claim_C6 (s : CState) (c t T0 : Nat) (avail : Availability) (drt : String)
    (mult requeue : Bool) (rest : List Frame)
    (hget : s.m_channels.get? c = some ⟨avail, T0, 0, drt⟩)
    (hq : s.m_frame_queue = [])
    (hin : s.incoming = ⟨c, .method (.basicNack t mult requeue)⟩ :: rest) :
    ∃ s1, GetAckOnChannel c s = (Except.error (Err.messageRejected t), s1) ∧
      s1.m_channels.get? c = some ⟨Availability.CS_Open, t, 0, drt⟩ ∧
      s1.m_last_used_channel = c ∧
      s1.m_frame_queue = [] ∧ s1.incoming = rest := by
  have hlt : c < s.m_channels.length := get?_some_lt _ _ _ hget
  exact ⟨_, GetAckOnChannel_nack_run s c t T0 avail drt mult requeue rest hget hq hin,
    get?_set_self _ _ _ hlt, rfl, hq, rfl⟩

/-- Witness for claim C6: a nack with tag 5 and the multiple flag set
still raises exactly one MessageNackedByBroker. -/
theorem claim_C6_witness :
    ∃ s1, GetAckOnChannel 1 (confirmExample [⟨1, .method (.basicNack 5 true false)⟩]) =
        (Except.error (Err.messageRejected 5), s1) ∧
      s1.m_channels.get? 1 = some ⟨Availability.CS_Open, 5, 0, ""⟩ ∧
      s1.m_last_used_channel = 1 ∧
      s1.m_frame_queue = [] ∧ s1.incoming = [] :=
  claim_C6 (confirmExample [⟨1, .method (.basicNack 5 true false)⟩]) 1 5 0
    Availability.CS_Used "" true false [] rfl rfl rfl

theorem bodyFrames_length (c : Nat) : ∀ frags, (bodyFrames c frags).length = frags.length
  | [] => rfl
  | _ :: rest => by simp [bodyFrames, bodyFrames_length c rest]

theorem readBodyLoop_ok (c : Nat) : ∀ (frags : List (List Nat)) (N got : Nat)
    (acc : List Nat) (rest : List Frame) (s : CState) (fuel : Nat),
    s.m_frame_queue = [] → s.incoming = bodyFrames c frags ++ rest →
    got + fragsSum frags = N →
    (∀ k, k < frags.length → got + fragsSum (frags.take k) < N) →
    frags.length ≤ fuel →
    readBodyLoop c N fuel got acc s =
      (.ok (acc ++ fragsConcat frags), { s with incoming := rest }) := by
  intro frags
  induction frags with
  | nil =>
    intro N got acc rest s fuel hq hin hsum hpre hfuel
    have hN : got = N := by simpa [fragsSum] using hsum
    have hnlt : ¬ got < N := by omega
    rw [readBodyLoop.eq_def]
    dsimp only
    rw [if_neg hnlt]
    have hs : ({ s with incoming := rest } : CState) = s := by
      cases s
      simp only [bodyFrames, List.nil_append] at hin
      simp_all
    rw [hs]
    simp [fragsConcat]
  | cons fr frs ih =>
    intro N got acc rest s fuel hq hin hsum hpre hfuel
    have hlt : got < N := by
      have h0 := hpre 0 (by simp)
      simpa [fragsSum] using h0
    cases fuel with
    | zero => simp at hfuel
    | succ fuel' =>
      have hbf : s.incoming = (⟨c, .body fr⟩ : Frame) :: (bodyFrames c frs ++ rest) := by
        simpa [bodyFrames] using hin
      have hnext := GetNextFrameOnChannel_broker_head c s ⟨c, .body fr⟩
        (bodyFrames c frs ++ rest) hq hbf (by simp [isCloseMethodFrame, Frame.frame_type, Frame.methodId, Frame.deliveryTag, Frame.bodySize, Frame.headerProps, Frame.fragment, Frame.returnReplyCode, Frame.returnReplyText, Frame.returnExchange, Frame.returnRoutingKey, Frame.closeReplyCode, Frame.closeReplyText, AmqpMethod.id]) rfl
      rw [readBodyLoop.eq_def]
      dsimp only
      rw [if_pos hlt]
      simp [hnext, Frame.frame_type, Frame.methodId, Frame.deliveryTag, Frame.bodySize, Frame.headerProps, Frame.fragment, Frame.returnReplyCode, Frame.returnReplyText, Frame.returnExchange, Frame.returnRoutingKey, Frame.closeReplyCode, Frame.closeReplyText, AmqpMethod.id]
      rw [ih N (got + fr.length) (acc ++ fr) rest _ fuel' (by simp [hq]) rfl
        (by simp [fragsSum] at hsum ⊢; omega)
        (by
          intro k hk
          have h2 := hpre (k + 1) (by simpa using Nat.succ_lt_succ hk)
          simp [fragsSum] at h2
          omega)
        (by simpa using Nat.le_of_succ_le_succ (Nat.succ_le_of_lt (Nat.lt_of_lt_of_le (Nat.lt_succ_self _) (Nat.succ_le_succ hfuel))))]
      simp [fragsConcat, List.append_assoc]

theorem ReadContent_ok (c props N : Nat) (frags : List (List Nat)) (rest : List Frame)
    (s : CState)
    (hq : s.m_frame_queue = [])
    (hin : s.incoming = ⟨c, .header props N⟩ :: (bodyFrames c frags ++ rest))
    (hsum : fragsSum frags = N)
    (hpre : ∀ k, k < frags.length → fragsSum (frags.take k) < N) :
    ReadContent c s = (.ok ⟨props, fragsConcat frags⟩, { s with incoming := rest }) := by
  have hnext := GetNextFrameOnChannel_broker_head c s ⟨c, .header props N⟩
    (bodyFrames c frags ++ rest) hq hin (by simp [isCloseMethodFrame, Frame.frame_type, Frame.methodId, Frame.deliveryTag, Frame.bodySize, Frame.headerProps, Frame.fragment, Frame.returnReplyCode, Frame.returnReplyText, Frame.returnExchange, Frame.returnRoutingKey, Frame.closeReplyCode, Frame.closeReplyText, AmqpMethod.id]) rfl
  have hloop := readBodyLoop_ok c frags N 0 [] rest
    ({ s with incoming := bodyFrames c frags ++ rest })
    (s.m_frame_queue.length + ((bodyFrames c frags).length + rest.length))
    (by simp [hq]) rfl (by simpa using hsum) (by simpa using hpre)
    (by simp [hq, bodyFrames_length])
  simp [ReadContent, hnext, Frame.frame_type, Frame.methodId, Frame.deliveryTag, Frame.bodySize, Frame.headerProps, Frame.fragment, Frame.returnReplyCode, Frame.returnReplyText, Frame.returnExchange, Frame.returnRoutingKey, Frame.closeReplyCode, Frame.closeReplyText, AmqpMethod.id]
  rw [hloop]
  simp

theorem readBodyLoop_stuck (c : Nat) : ∀ (frags : List (List Nat)) (N got : Nat)
    (acc : List Nat) (g : Frame) (rest : List Frame) (s : CState) (fuel : Nat),
    s.m_frame_queue = [] → s.incoming = bodyFrames c frags ++ g :: rest →
    got + fragsSum frags < N →
    g.channel = c → isCloseMethodFrame g = false → g.frame_type ≠ AMQP_FRAME_BODY →
    frags.length < fuel →
    (readBodyLoop c N fuel got acc s).1 = Except.error Err.protocolViolation := by
  intro frags
  induction frags with
  | nil =>
    intro N got acc g rest s fuel hq hin hlt hch hnc hnb hfuel
    have hgot : got < N := by simpa [fragsSum] using hlt
    cases fuel with
    | zero => exact absurd hfuel (by simp)
    | succ fuel' =>
      have hbf : s.incoming = g :: rest := by simpa [bodyFrames] using hin
      have hnext := GetNextFrameOnChannel_broker_head c s g rest hq hbf hnc hch
      rw [readBodyLoop.eq_def]
      dsimp only
      rw [if_pos hgot]
      have hnb3 : g.frame_type ≠ 3 := by simpa using hnb
      simp [hnext, hnb3]
  | cons fr frs ih =>
    intro N got acc g rest s fuel hq hin hlt hch hnc hnb hfuel
    have hgot : got < N := by simp [fragsSum] at hlt; omega
    cases fuel with
    | zero => exact absurd hfuel (by simp)
    | succ fuel' =>
      have hbf : s.incoming = (⟨c, .body fr⟩ : Frame) :: (bodyFrames c frs ++ g :: rest) := by
        simpa [bodyFrames] using hin
      have hnext := GetNextFrameOnChannel_broker_head c s ⟨c, .body fr⟩
        (bodyFrames c frs ++ g :: rest) hq hbf (by simp [isCloseMethodFrame, Frame.frame_type, Frame.methodId, Frame.deliveryTag, Frame.bodySize, Frame.headerProps, Frame.fragment, Frame.returnReplyCode, Frame.returnReplyText, Frame.returnExchange, Frame.returnRoutingKey, Frame.closeReplyCode, Frame.closeReplyText, AmqpMethod.id]) rfl
      rw [readBodyLoop.eq_def]
      dsimp only
      rw [if_pos hgot]
      simp [hnext, Frame.frame_type, Frame.methodId, Frame.deliveryTag, Frame.bodySize, Frame.headerProps, Frame.fragment, Frame.returnReplyCode, Frame.returnReplyText, Frame.returnExchange, Frame.returnRoutingKey, Frame.closeReplyCode, Frame.closeReplyText, AmqpMethod.id]
      exact ih N (got + fr.length) (acc ++ fr) g rest _ fuel' (by simp [hq]) rfl
        (by simp [fragsSum] at hlt ⊢; omega) hch hnc hnb
        (Nat.lt_of_succ_lt_succ (by simpa using hfuel))

/-- Claim C5: when the next frames on a channel are a header declaring
body size N followed by body fragments, ReadContent returns a message
whose body is the concatenation of the fragments in arrival order,
stopping exactly when the byte total reaches N; a non-header first frame,
or a non-body frame arriving before N bytes have accumulated, raises the
protocol-violation error. -/
theorem claim_C5 (c : Nat) (s : CState) (hq : s.m_frame_queue = []) :
    (∀ props N frags rest,
      s.incoming = ⟨c, .header props N⟩ :: (bodyFrames c frags ++ rest) →
      fragsSum frags = N → (∀ k, k < frags.length → fragsSum (frags.take k) < N) →
      ReadContent c s = (Except.ok ⟨props, fragsConcat frags⟩, { s with incoming := rest })) ∧
    (∀ f rest, s.incoming = f :: rest → f.channel = c → isCloseMethodFrame f = false →
      f.frame_type ≠ AMQP_FRAME_HEADER →
      (ReadContent c s).1 = Except.error Err.protocolViolation) ∧
    (∀ props N frags g rest,
      s.incoming = ⟨c, .header props N⟩ :: (bodyFrames c frags ++ g :: rest) →
      fragsSum frags < N → g.channel = c → isCloseMethodFrame g = false →
      g.frame_type ≠ AMQP_FRAME_BODY →
      (ReadContent c s).1 = Except.error Err.protocolViolation) := by
  refine ⟨?_, ?_, ?_⟩
  · intro props N frags rest hin hsum hpre
    exact ReadContent_ok c props N frags rest s hq hin hsum hpre
  · intro f rest hin hch hnc hnh
    have hnext := GetNextFrameOnChannel_broker_head c s f rest hq hin hnc hch
    have hnh3 : f.frame_type ≠ 2 := by simpa using hnh
    simp [ReadContent, hnext, hnh3]
  · intro props N frags g rest hin hsum hch hnc hnb
    have hnext := GetNextFrameOnChannel_broker_head c s ⟨c, .header props N⟩
      (bodyFrames c frags ++ g :: rest) hq hin (by simp [isCloseMethodFrame, Frame.frame_type, Frame.methodId, Frame.deliveryTag, Frame.bodySize, Frame.headerProps, Frame.fragment, Frame.returnReplyCode, Frame.returnReplyText, Frame.returnExchange, Frame.returnRoutingKey, Frame.closeReplyCode, Frame.closeReplyText, AmqpMethod.id]) rfl
    have hstuck := readBodyLoop_stuck c frags N 0 [] g rest
      ({ s with incoming := bodyFrames c frags ++ g :: rest })
      (s.m_frame_queue.length + ((bodyFrames c frags).length + (rest.length + 1)))
      (by simp [hq]) rfl (by simpa using hsum) hch hnc hnb
      (by simp [hq, bodyFrames_length])
    simp [ReadContent, hnext, Frame.frame_type, Frame.methodId, Frame.deliveryTag, Frame.bodySize, Frame.headerProps, Frame.fragment, Frame.returnReplyCode, Frame.returnReplyText, Frame.returnExchange, Frame.returnRoutingKey, Frame.closeReplyCode, Frame.closeReplyText, AmqpMethod.id]
    rcases hr : readBodyLoop c N
        (s.m_frame_queue.length + ((bodyFrames c frags).length + (rest.length + 1))) 0 []
        ({ s with incoming := bodyFrames c frags ++ g :: rest }) with ⟨res, s2⟩
    rw [hr] at hstuck
    simp at hstuck
    subst hstuck
    simp

/-- Witness for claim C5: a header declaring three bytes followed by two
fragments reassembles to their concatenation; a body frame where a header
was expected, and a method frame arriving one byte short, both raise the
protocol violation. -/
theorem claim_C5_witness :
    ReadContent 1 (confirmExample [⟨1, .header 7 3⟩, ⟨1, .body [10, 11]⟩, ⟨1, .body [12]⟩]) =
      (Except.ok ⟨7, fragsConcat [[10, 11], [12]]⟩,
        { confirmExample [⟨1, .header 7 3⟩, ⟨1, .body [10, 11]⟩, ⟨1, .body [12]⟩] with
          incoming := [] }) ∧
    (ReadContent 1 (confirmExample [⟨1, .body [9]⟩])).1 =
      Except.error Err.protocolViolation ∧
    (ReadContent 1 (confirmExample [⟨1, .header 7 3⟩, ⟨1, .body [10]⟩,
        ⟨1, .method (.other 9)⟩])).1 = Except.error Err.protocolViolation := by
  refine ⟨?_, ?_, ?_⟩
  · exact (claim_C5 1 _ rfl).1 7 3 [[10, 11], [12]] [] rfl (by decide) (by decide)
  · exact (claim_C5 1 _ rfl).2.1 ⟨1, .body [9]⟩ [] rfl rfl (by decide) (by decide)
  · exact (claim_C5 1 _ rfl).2.2 7 3 [[10]] ⟨1, .method (.other 9)⟩ [] rfl (by decide) rfl
      (by decide) (by decide)

/-- The full run of the publish-confirm wait on a basic.return response:
the returned content is reassembled, the trailing basic.ack is consumed,
and MessageReturnedException is raised with the channel released. -/
theorem GetAckOnChannel_return_run (s : CState) (c T0 rc t props N : Nat)
    (avail : Availability) (drt rt ex rk : String) (mult : Bool)
    (frags : List (List Nat)) (rest : List Frame)
    (hget : s.m_channels.get? c = some ⟨avail, T0, 0, drt⟩)
    (hq : s.m_frame_queue = [])
    (hin : s.incoming = ⟨c, .method (.basicReturn rc rt ex rk)⟩ ::
      (⟨c, .header props N⟩ :: (bodyFrames c frags ++ (⟨c, .method (.basicAck t mult)⟩ :: rest))))
    (hsum : fragsSum frags = N)
    (hpre : ∀ k, k < frags.length → fragsSum (frags.take k) < N) :
    GetAckOnChannel c s = (Except.error (Err.messageReturned
        ⟨⟨props, fragsConcat frags⟩, rc, rt, ex, rk⟩),
      { s with m_channels := s.m_channels.set c ⟨Availability.CS_Open, T0, 0, drt⟩,
               m_last_used_channel := c, incoming := rest,
               released_channels := s.released_channels ++ [c] }) := by
  have hlt : c < s.m_channels.length := get?_some_lt _ _ _ hget
  have hwait := GetMethodOnChannel_head [c] PUBLISH_ACK s
    ⟨c, .method (.basicReturn rc rt ex rk)⟩
    (⟨c, .header props N⟩ :: (bodyFrames c frags ++ (⟨c, .method (.basicAck t mult)⟩ :: rest)))
    hq hin
    (by simp [isCloseMethodFrame, Frame.frame_type, Frame.methodId, AmqpMethod.id])
    (by simp [matchesWait, PUBLISH_ACK, Frame.frame_type, Frame.methodId, AmqpMethod.id])
  have hread := ReadContent_ok c props N frags ((⟨c, .method (.basicAck t mult)⟩ : Frame) :: rest)
    ({ s with m_frame_queue := [], incoming := ⟨c, .header props N⟩ ::
      (bodyFrames c frags ++ (⟨c, .method (.basicAck t mult)⟩ : Frame) :: rest) })
    rfl rfl hsum hpre
  have hack := GetMethodOnChannel_head [c] [AMQP_BASIC_ACK_METHOD]
    ({ s with m_frame_queue := [], incoming := (⟨c, .method (.basicAck t mult)⟩ : Frame) :: rest })
    ⟨c, .method (.basicAck t mult)⟩ rest rfl rfl
    (by simp [isCloseMethodFrame, Frame.frame_type, Frame.methodId, AmqpMethod.id])
    (by simp [matchesWait, Frame.frame_type, Frame.methodId, AmqpMethod.id])
  simp only [AMQP_BASIC_ACK_METHOD] at hack
  have helem : s.m_channels[c] =
      ({ availability := avail, last_delivery_tag := T0, unconsumed_ack := 0,
         direct_reply_tag := drt } : channel_state_t) := by
    have h1 : s.m_channels[c]? = some ⟨avail, T0, 0, drt⟩ := by
      simpa [List.get?_eq_getElem?] using hget
    rw [List.getElem?_eq_getElem hlt] at h1
    exact Option.some.inj h1
  simp only [GetAckOnChannel, listAt, hget, hwait]
  simp [CreateMessageReturnedException, hread, hack, ReturnChannel, listAt, setChannelState,
    hlt, MaybeReleaseBuffersOnChannel, findFrame, hq, helem, Frame.frame_type, Frame.methodId,
    Frame.deliveryTag, Frame.returnReplyCode, Frame.returnReplyText, Frame.returnExchange,
    Frame.returnRoutingKey, AmqpMethod.id]

/-- The fast-path run of the publish-confirm wait: a banked
unconsumed_ack is decremented and nothing else changes. -/
theorem GetAckOnChannel_fast_run (s : CState) (c u T0 : Nat) (avail : Availability)
    (drt : String)
    (hget : s.m_channels.get? c = some ⟨avail, T0, u + 1, drt⟩) :
    GetAckOnChannel c s = (Except.ok (), setChannelState c ⟨avail, T0, u, drt⟩ s) := by
  simp only [GetAckOnChannel, listAt, hget]
  rw [if_pos (Nat.succ_pos u)]
  simp

/-- Claim C10: a publish-confirm wait observing a basic.return reassembles
the returned message, consumes the following basic.ack, and raises
MessageReturned carrying the message, reply code, reply text, exchange and
routing key, while last_delivery_tag and unconsumed_ack stay exactly as
they were; the trailing ack's delivery tag is consumed but never recorded
in the channel state. -/
theorem claim_C10 (s : CState) (c T0 rc t props N : Nat)
    (avail : Availability) (drt rt ex rk : String) (mult : Bool)
    (frags : List (List Nat)) (rest : List Frame)
    (hget : s.m_channels.get? c = some ⟨avail, T0, 0, drt⟩)
    (hq : s.m_frame_queue = [])
    (hin : s.incoming = ⟨c, .method (.basicReturn rc rt ex rk)⟩ ::
      (⟨c, .header props N⟩ :: (bodyFrames c frags ++ (⟨c, .method (.basicAck t mult)⟩ :: rest))))
    (hsum : fragsSum frags = N)
    (hpre : ∀ k, k < frags.length → fragsSum (frags.take k) < N) :
    ∃ s1, GetAckOnChannel c s = (Except.error (Err.messageReturned
        ⟨⟨props, fragsConcat frags⟩, rc, rt, ex, rk⟩), s1) ∧
      s1.m_channels.get? c = some ⟨Availability.CS_Open, T0, 0, drt⟩ ∧
      s1.incoming = rest ∧ s1.m_frame_queue = [] := by
  have hlt : c < s.m_channels.length := get?_some_lt _ _ _ hget
  exact ⟨_, GetAckOnChannel_return_run s c T0 rc t props N avail drt rt ex rk mult frags rest
    hget hq hin hsum hpre, get?_set_self _ _ _ hlt, rfl, hq⟩

/-- Witness for claim C10: a returned two-byte message followed by its
ack with tag 9; the tag is consumed but last_delivery_tag stays 0. -/
theorem claim_C10_witness :
    ∃ s1, GetAckOnChannel 1 (confirmExample [⟨1, .method (.basicReturn 312 "no route" "ex" "rk")⟩,
        ⟨1, .header 7 2⟩, ⟨1, .body [5, 6]⟩, ⟨1, .method (.basicAck 9 false)⟩]) =
      (Except.error (Err.messageReturned
        ⟨⟨7, fragsConcat [[5, 6]]⟩, 312, "no route", "ex", "rk"⟩), s1) ∧
      s1.m_channels.get? 1 = some ⟨Availability.CS_Open, 0, 0, ""⟩ ∧
      s1.incoming = [] ∧ s1.m_frame_queue = [] :=
  claim_C10 (confirmExample [⟨1, .method (.basicReturn 312 "no route" "ex" "rk")⟩,
      ⟨1, .header 7 2⟩, ⟨1, .body [5, 6]⟩, ⟨1, .method (.basicAck 9 false)⟩])
    1 0 312 9 7 2 Availability.CS_Used "" "no route" "ex" "rk" false [[5, 6]] []
    rfl rfl rfl (by decide) (by decide)

/-- Claim C2 counterexample: the banked unconsumed_ack fast path of
GetAckOnChannel returns success while leaving the channel Used (never
returned to the pool), the most-recently-used marker untouched, and no
buffer-release hint issued — contradicting the claim that every exit of
the publish-confirm wait releases the channel and offers a buffer
release. -/
theorem claim_C2_counterexample :
    ∃ s1, GetAckOnChannel 1 bankedExample = (Except.ok (), s1) ∧
      s1.m_channels.get? 1 = some ⟨Availability.CS_Used, 5, 1, ""⟩ ∧
      s1.m_last_used_channel = 0 ∧ s1.released_channels = [] := by
  refine ⟨setChannelState 1 ⟨Availability.CS_Used, 5, 1, ""⟩ bankedExample, ?_, rfl, rfl, rfl⟩
  exact GetAckOnChannel_fast_run bankedExample 1 1 5 Availability.CS_Used "" rfl

/-- Claim C2 as amended: the three waiting exits of the publish-confirm
wait — success via a basic.ack, failure with MessageNackedByBroker, and
failure with MessageReturned — release the channel back to the pool
(Open, recorded most-recently-used) and issue the per-channel
buffer-release hint when no frames remain queued for the channel; the
banked unconsumed_ack fast path, however, returns with the pool state,
most-recently-used marker and buffers untouched, only decrementing the
banked count. -/
theorem claim_C2_amended (s : CState) (c T0 : Nat) (avail : Availability) (drt : String) :
    (∀ T mult rest, s.m_channels.get? c = some ⟨avail, T0, 0, drt⟩ → s.m_frame_queue = [] →
      s.incoming = ⟨c, .method (.basicAck T mult)⟩ :: rest → T0 < T →
      ∃ s1, GetAckOnChannel c s = (Except.ok (), s1) ∧
        s1.m_channels.get? c = some ⟨Availability.CS_Open, T, T - T0 - 1, drt⟩ ∧
        s1.m_last_used_channel = c ∧
        s1.released_channels = s.released_channels ++ [c]) ∧
    (∀ t mult requeue rest, s.m_channels.get? c = some ⟨avail, T0, 0, drt⟩ →
      s.m_frame_queue = [] →
      s.incoming = ⟨c, .method (.basicNack t mult requeue)⟩ :: rest →
      ∃ s1, GetAckOnChannel c s = (Except.error (Err.messageRejected t), s1) ∧
        s1.m_channels.get? c = some ⟨Availability.CS_Open, t, 0, drt⟩ ∧
        s1.m_last_used_channel = c ∧
        s1.released_channels = s.released_channels ++ [c]) ∧
    (∀ rc rt ex rk props N frags t mult rest,
      s.m_channels.get? c = some ⟨avail, T0, 0, drt⟩ → s.m_frame_queue = [] →
      s.incoming = ⟨c, .method (.basicReturn rc rt ex rk)⟩ :: (⟨c, .header props N⟩ ::
        (bodyFrames c frags ++ (⟨c, .method (.basicAck t mult)⟩ :: rest))) →
      fragsSum frags = N → (∀ k, k < frags.length → fragsSum (frags.take k) < N) →
      ∃ s1, GetAckOnChannel c s = (Except.error (Err.messageReturned
          ⟨⟨props, fragsConcat frags⟩, rc, rt, ex, rk⟩), s1) ∧
        s1.m_channels.get? c = some ⟨Availability.CS_Open, T0, 0, drt⟩ ∧
        s1.m_last_used_channel = c ∧
        s1.released_channels = s.released_channels ++ [c]) ∧
    (∀ u, s.m_channels.get? c = some ⟨avail, T0, u + 1, drt⟩ →
      GetAckOnChannel c s = (Except.ok (), setChannelState c ⟨avail, T0, u, drt⟩ s)) := by
  refine ⟨?_, ?_, ?_, ?_⟩
  · intro T mult rest hget hq hin hT
    have hlt : c < s.m_channels.length := get?_some_lt _ _ _ hget
    exact ⟨_, GetAckOnChannel_ack_run s c T0 T avail drt mult rest hget hq hin hT,
      get?_set_self _ _ _ hlt, rfl, rfl⟩
  · intro t mult requeue rest hget hq hin
    have hlt : c < s.m_channels.length := get?_some_lt _ _ _ hget
    exact ⟨_, GetAckOnChannel_nack_run s c t T0 avail drt mult requeue rest hget hq hin,
      get?_set_self _ _ _ hlt, rfl, rfl⟩
  · intro rc rt ex rk props N frags t mult rest hget hq hin hsum hpre
    have hlt : c < s.m_channels.length := get?_some_lt _ _ _ hget
    exact ⟨_, GetAckOnChannel_return_run s c T0 rc t props N avail drt rt ex rk mult frags rest
      hget hq hin hsum hpre, get?_set_self _ _ _ hlt, rfl, rfl⟩
  · intro u hget
    exact GetAckOnChannel_fast_run s c u T0 avail drt hget

/-- Witness for claim C2 as amended: the ack exit on a fresh channel
releases it and hints a buffer release, while the banked fast path leaves
the pool untouched. -/
theorem claim_C2_amended_witness :
    (∃ s1, GetAckOnChannel 1 (confirmExample [⟨1, .method (.basicAck 3 false)⟩]) =
        (Except.ok (), s1) ∧
      s1.m_channels.get? 1 = some ⟨Availability.CS_Open, 3, 3 - 0 - 1, ""⟩ ∧
      s1.m_last_used_channel = 1 ∧
      s1.released_channels =
        (confirmExample [⟨1, .method (.basicAck 3 false)⟩]).released_channels ++ [1]) ∧
    GetAckOnChannel 1 bankedExample =
      (Except.ok (), setChannelState 1 ⟨Availability.CS_Used, 5, 1, ""⟩ bankedExample) := by
  constructor
  · exact (claim_C2_amended (confirmExample [⟨1, .method (.basicAck 3 false)⟩]) 1 0
      Availability.CS_Used "").1 3 false [] rfl rfl rfl (by decide)
  · exact (claim_C2_amended bankedExample 1 5 Availability.CS_Used "").2.2.2 1 rfl

/-- Claim C4 counterexample: a connection.close method parked in the
frame queue for the awaited channel is handed back by
GetNextFrameOnChannel as an ordinary frame — no connection.close-ok is
sent, the connection stays marked connected, and no exception is raised —
contradicting the claim that every frame removed from the frame queue is
first checked for connection.close. -/
theorem claim_C4_counterexample :
    ∃ s1, GetNextFrameOnChannel 0
        (queueExample [⟨0, .method (.connectionClose 320 "shutting down")⟩]) =
      (Except.ok (some ⟨0, .method (.connectionClose 320 "shutting down")⟩), s1) ∧
      s1.m_is_connected = true ∧ s1.sent_methods = [] ∧ s1.m_frame_queue = [] :=
  ⟨{ queueExample [⟨0, .method (.connectionClose 320 "shutting down")⟩] with
      m_frame_queue := [] }, rfl, rfl, rfl, rfl⟩

/-- Claim C4 as amended: a frame pulled from the frame queue by
GetNextFrameOnChannel is checked for channel.close only — a channel.close
makes the engine send channel.close-ok, mark the channel Closed, and
raise the mapped exception, while a queued connection.close is returned
as an ordinary frame; a frame freshly read from the transport is checked
for both channel.close and connection.close before anything else, even
when it is not on the channel being awaited, with the matching
close-ok handshake and immediate exception. -/
theorem claim_C4_amended (s : CState) (c : Nat) :
    (∀ code text q1 st, s.m_frame_queue = ⟨c, .method (.channelClose code text)⟩ :: q1 →
      s.m_channels.get? c = some st →
      GetNextFrameOnChannel c s = (Except.error (Err.channelException code text),
        sendMethod c AMQP_CHANNEL_CLOSE_OK_METHOD
          (setChannelState c { st with availability := Availability.CS_Closed }
            { s with m_frame_queue := q1 }))) ∧
    (∀ code text q1, s.m_frame_queue = ⟨c, .method (.connectionClose code text)⟩ :: q1 →
      GetNextFrameOnChannel c s = (Except.ok (some ⟨c, .method (.connectionClose code text)⟩),
        { s with m_frame_queue := q1 })) ∧
    (∀ d code text rest st, s.m_frame_queue = [] →
      s.incoming = ⟨d, .method (.channelClose code text)⟩ :: rest →
      s.m_channels.get? d = some st →
      GetNextFrameOnChannel c s = (Except.error (Err.channelException code text),
        sendMethod d AMQP_CHANNEL_CLOSE_OK_METHOD
          (setChannelState d { st with availability := Availability.CS_Closed }
            { s with incoming := rest }))) ∧
    (∀ d code text rest, s.m_frame_queue = [] →
      s.incoming = ⟨d, .method (.connectionClose code text)⟩ :: rest →
      GetNextFrameOnChannel c s = (Except.error (Err.connectionException code text),
        sendMethod 0 AMQP_CONNECTION_CLOSE_OK_METHOD
          { s with incoming := rest, m_is_connected := false })) := by
  refine ⟨?_, ?_, ?_, ?_⟩
  · intro code text q1 st hq hget
    simp only [List.get?_eq_getElem?] at hget
    simp [GetNextFrameOnChannel, hq, extractFirst, is_on_channel, Frame.frame_type,
      Frame.methodId, AmqpMethod.id, FinishCloseChannel, listAt, hget, setChannelState,
      sendMethod, Frame.closeReplyCode, Frame.closeReplyText]
  · intro code text q1 hq
    simp [GetNextFrameOnChannel, hq, extractFirst, is_on_channel, Frame.frame_type,
      Frame.methodId, AmqpMethod.id]
  · intro d code text rest st hq hin hget
    simp only [List.get?_eq_getElem?] at hget
    simp only [GetNextFrameOnChannel, hq, extractFirst, GetNextFrameFromBrokerOnChannel]
    rw [hin]
    simp only [awaitLoopAux]
    simp [CheckFrameForClose, Frame.frame_type, Frame.methodId, AmqpMethod.id,
      FinishCloseChannel, listAt, hget, setChannelState, sendMethod,
      Frame.closeReplyCode, Frame.closeReplyText]
    exact hq
  · intro d code text rest hq hin
    simp only [GetNextFrameOnChannel, hq, extractFirst, GetNextFrameFromBrokerOnChannel]
    rw [hin]
    simp only [awaitLoopAux]
    simp [CheckFrameForClose, Frame.frame_type, Frame.methodId, AmqpMethod.id,
      FinishCloseConnection, sendMethod, Frame.closeReplyCode, Frame.closeReplyText]
    exact hq

/-- Witness for claim C4 as amended: a queued channel.close on the
awaited channel is handled with the close handshake, and a fresh
channel.close on a different channel aborts the wait as well. -/
theorem claim_C4_amended_witness :
    GetNextFrameOnChannel 1 (queueExample [⟨1, .method (.channelClose 406 "precondition")⟩]) =
      (Except.error (Err.channelException 406 "precondition"),
        sendMethod 1 AMQP_CHANNEL_CLOSE_OK_METHOD
          (setChannelState 1 { availability := Availability.CS_Closed }
            { queueExample [⟨1, .method (.channelClose 406 "precondition")⟩] with
              m_frame_queue := [] })) ∧
    GetNextFrameOnChannel 1 (confirmExample [⟨0, .method (.connectionClose 320 "bye")⟩]) =
      (Except.error (Err.connectionException 320 "bye"),
        sendMethod 0 AMQP_CONNECTION_CLOSE_OK_METHOD
          { confirmExample [⟨0, .method (.connectionClose 320 "bye")⟩] with
            incoming := [], m_is_connected := false }) := by
  constructor
  · exact (claim_C4_amended (queueExample [⟨1, .method (.channelClose 406 "precondition")⟩])
      1).1 406 "precondition" [] { availability := Availability.CS_Used } rfl rfl
  · exact (claim_C4_amended (confirmExample [⟨0, .method (.connectionClose 320 "bye")⟩])
      1).2.2.2 0 320 "bye" [] rfl rfl

/-- Matching a basic.deliver method on a channel splits into the deliver
test and the channel test. -/
theorem is_method_deliver_eq (c : Nat) (f : Frame) :
    is_method_on_channel f AMQP_BASIC_DELIVER_METHOD c =
      (isDeliverFrame f && (f.channel == c)) := by
  simp [is_method_on_channel, isDeliverFrame, Bool.and_assoc]

/-- Once the declared size is reached, the declarative body rule accepts. -/
theorem specBodies_of_le (need got : Nat) (l : List Frame) (h : need ≤ got) :
    specBodies need got l = .ok true := by
  cases l with
  | nil => simp [specBodies, h]
  | cons g rest => simp [specBodies, h]

/-- Projection of the queue keeps a frame on the channel. -/
theorem projOnChannel_cons_pos (c : Nat) (g : Frame) (rest : List Frame)
    (h : g.channel = c) :
    projOnChannel c (g :: rest) = g :: projOnChannel c rest := by
  simp [projOnChannel, h]

/-- Projection of the queue drops a frame of another channel. -/
theorem projOnChannel_cons_neg (c : Nat) (g : Frame) (rest : List Frame)
    (h : ¬ g.channel = c) :
    projOnChannel c (g :: rest) = projOnChannel c rest := by
  simp [projOnChannel, h]

/-- The body-scan of CheckForQueuedMessageOnChannel computes the
declarative body rule of the channel projection. -/
theorem checkBody_proj (c need : Nat) (l : List Frame) :
    ∀ got, checkBody c need got l = specBodies need got (projOnChannel c l) := by
  induction l with
  | nil => intro got; simp [checkBody, specBodies, projOnChannel]
  | cons g rest ih =>
    intro got
    by_cases hle : need ≤ got
    · rw [specBodies_of_le need got _ hle]
      simp [checkBody, hle]
    · by_cases hch : g.channel = c
      · by_cases hft : g.frame_type = AMQP_FRAME_BODY
        · simp [checkBody, hle, hch, hft, projOnChannel_cons_pos c g rest hch,
            specBodies, ih]
        · have hft3 : g.frame_type ≠ 3 := by simpa using hft
          simp [checkBody, hle, hch, hft3, projOnChannel_cons_pos c g rest hch, specBodies]
      · simp [checkBody, hle, hch, projOnChannel_cons_neg c g rest hch, ih]

/-- When no queued basic.deliver for the channel exists, the channel
projection holds no deliver frame either. -/
theorem dropWhile_proj_none (c : Nat) (q : List Frame)
    (h : findFrame (fun f => is_method_on_channel f AMQP_BASIC_DELIVER_METHOD c) q = none) :
    (projOnChannel c q).dropWhile (fun f => ! isDeliverFrame f) = [] := by
  simp only [is_method_deliver_eq] at h
  induction q with
  | nil => rfl
  | cons g rest ih =>
    simp only [findFrame] at h
    by_cases hch : g.channel = c
    · have hd : isDeliverFrame g = false := by
        cases hdel : isDeliverFrame g
        · rfl
        · exfalso
          rw [if_pos (by simp [hdel, hch])] at h
          exact Option.noConfusion h
      rw [if_neg (by simp [hd])] at h
      rw [projOnChannel_cons_pos c g rest hch, List.dropWhile_cons, if_pos (by simp [hd])]
      exact ih h
    · rw [if_neg (by simp [hch])] at h
      rw [projOnChannel_cons_neg c g rest hch]
      exact ih h

/-- The earliest queued basic.deliver for the channel is the head of the
deliver-trimmed channel projection, and the frames after it project to
the tail. -/
theorem dropWhile_proj_some (c : Nat) (q : List Frame) (d : Frame) (after : List Frame)
    (h : findFrame (fun f => is_method_on_channel f AMQP_BASIC_DELIVER_METHOD c) q
      = some (d, after)) :
    (projOnChannel c q).dropWhile (fun f => ! isDeliverFrame f)
      = d :: projOnChannel c after := by
  simp only [is_method_deliver_eq] at h
  induction q with
  | nil => simp [findFrame] at h
  | cons g rest ih =>
    simp only [findFrame] at h
    by_cases hch : g.channel = c
    · cases hdel : isDeliverFrame g with
      | true =>
        rw [if_pos (by simp [hdel, hch])] at h
        simp only [Option.some.injEq, Prod.mk.injEq] at h
        obtain ⟨hg, hrest⟩ := h
        subst hg; subst hrest
        rw [projOnChannel_cons_pos c g rest hch, List.dropWhile_cons,
          if_neg (by simp [hdel])]
      | false =>
        rw [if_neg (by simp [hdel])] at h
        rw [projOnChannel_cons_pos c g rest hch, List.dropWhile_cons,
          if_pos (by simp [hdel])]
        exact ih h
    · rw [if_neg (by simp [hch])] at h
      rw [projOnChannel_cons_neg c g rest hch]
      exact ih h

/-- When no queued frame sits on the channel, the channel projection is
empty. -/
theorem proj_nil_of_onc_none (c : Nat) (l : List Frame)
    (h : findFrame (fun f => is_on_channel f c) l = none) :
    projOnChannel c l = [] := by
  induction l with
  | nil => rfl
  | cons g rest ih =>
    simp only [findFrame] at h
    cases hp : is_on_channel g c with
    | true => simp [hp] at h
    | false =>
      simp only [hp, Bool.false_eq_true, if_false] at h
      rw [projOnChannel_cons_neg c g rest (by simpa [is_on_channel] using hp)]
      exact ih h

/-- The first queued frame on the channel heads the channel projection,
and the frames after it project to the tail. -/
theorem proj_cons_of_onc_some (c : Nat) (l : List Frame) (g : Frame) (l2 : List Frame)
    (h : findFrame (fun f => is_on_channel f c) l = some (g, l2)) :
    projOnChannel c l = g :: projOnChannel c l2 := by
  induction l with
  | nil => simp [findFrame] at h
  | cons a rest ih =>
    simp only [findFrame] at h
    cases hp : is_on_channel a c with
    | true =>
      simp only [hp, if_true, Option.some.injEq, Prod.mk.injEq] at h
      obtain ⟨hg, hl⟩ := h
      subst hg; subst hl
      exact projOnChannel_cons_pos c a rest (by simpa [is_on_channel] using hp)
    | false =>
      simp only [hp, Bool.false_eq_true, if_false] at h
      rw [projOnChannel_cons_neg c a rest (by simpa [is_on_channel] using hp)]
      exact ih h

/-- CheckForQueuedMessageOnChannel computes exactly the declarative
completeness rule over the channel projection of the queue. -/
theorem CheckForQueued_spec (c : Nat) (q : List Frame) :
    CheckForQueuedMessageOnChannel c q = specDeliveryComplete (projOnChannel c q) := by
  cases hf : findFrame (fun f => is_method_on_channel f AMQP_BASIC_DELIVER_METHOD c) q with
  | none =>
    have hf2 : findFrame (fun f => is_method_on_channel f 60060 c) q = none := hf
    simp [CheckForQueuedMessageOnChannel, specDeliveryComplete, hf2,
      dropWhile_proj_none c q hf]
  | some pr =>
    obtain ⟨d, after⟩ := pr
    have hf2 : findFrame (fun f => is_method_on_channel f 60060 c) q = some (d, after) := hf
    cases hg : findFrame (fun f => is_on_channel f c) after with
    | none =>
      simp [CheckForQueuedMessageOnChannel, specDeliveryComplete, hf2, hg,
        dropWhile_proj_some c q d after hf, proj_nil_of_onc_none c after hg]
    | some pr2 =>
      obtain ⟨g, after2⟩ := pr2
      by_cases hh : g.frame_type = AMQP_FRAME_HEADER
      · simp [CheckForQueuedMessageOnChannel, specDeliveryComplete, hf2, hg,
          dropWhile_proj_some c q d after hf, proj_cons_of_onc_some c after g after2 hg,
          hh, checkBody_proj]
      · have hh2 : g.frame_type ≠ 2 := by simpa using hh
        simp [CheckForQueuedMessageOnChannel, specDeliveryComplete, hf2, hg,
          dropWhile_proj_some c q d after hf, proj_cons_of_onc_some c after g after2 hg,
          hh2]

/-- The find-then-erase of the queue is a split at the found frame. -/
theorem splitFirst_of_findFrame (p : Frame → Bool) (q : List Frame) (f : Frame)
    (after : List Frame) (h : findFrame p q = some (f, after)) :
    ∃ pre, splitFirst p q = some (pre, f, after) := by
  induction q with
  | nil => simp [findFrame] at h
  | cons a rest ih =>
    simp only [findFrame] at h
    by_cases hp : p a = true
    · rw [if_pos hp] at h
      simp only [Option.some.injEq, Prod.mk.injEq] at h
      obtain ⟨hf, ha⟩ := h
      subst hf; subst ha
      exact ⟨[], by simp [splitFirst, hp]⟩
    · rw [if_neg hp] at h
      obtain ⟨pre, hpre⟩ := ih h
      exact ⟨a :: pre, by simp [splitFirst, hp, hpre]⟩

/-- A frame whose frame_type tag is the body tag carries its fragment as
its payload. -/
theorem payload_body_of_frame_type (f : Frame) (h : f.frame_type = AMQP_FRAME_BODY) :
    f.payload = FramePayload.body f.fragment := by
  cases hp : f.payload with
  | method m => simp [Frame.frame_type, hp] at h
  | header a b => simp [Frame.frame_type, hp] at h
  | body b => simp [Frame.fragment, hp]

/-- A frame whose frame_type tag is the header tag carries its properties
and declared body size as its payload. -/
theorem payload_header_of_frame_type (f : Frame) (h : f.frame_type = AMQP_FRAME_HEADER) :
    f.payload = FramePayload.header f.headerProps f.bodySize := by
  cases hp : f.payload with
  | method m => simp [Frame.frame_type, hp] at h
  | header a b => simp [Frame.headerProps, Frame.bodySize, hp]
  | body b => simp [Frame.frame_type, hp] at h

/-- When the body-scan accepts, the body-extraction pass succeeds. -/
theorem takeBodies_of_checkBody (c need : Nat) (l : List Frame) :
    ∀ got, checkBody c need got l = .ok true →
      ∀ acc, ∃ out leftover, takeBodies c need got acc l = some (out, leftover) := by
  induction l with
  | nil =>
    intro got h acc
    simp only [checkBody] at h
    by_cases hle : need ≤ got
    · exact ⟨acc, [], by simp [takeBodies, hle]⟩
    · rw [if_neg hle] at h
      exact absurd h (by simp)
  | cons g rest ih =>
    intro got h acc
    simp only [checkBody] at h
    by_cases hle : need ≤ got
    · exact ⟨acc, g :: rest, by simp [takeBodies, hle]⟩
    · rw [if_neg hle] at h
      by_cases hch : g.channel = c
      · by_cases hft : g.frame_type = AMQP_FRAME_BODY
        · rw [if_pos (by simp [hch]), if_pos (by simp [hft])] at h
          obtain ⟨out, leftover, hrec⟩ := ih (got + g.fragment.length) h (acc ++ g.fragment)
          refine ⟨out, leftover, ?_⟩
          simp only [takeBodies, payload_body_of_frame_type g hft]
          rw [if_neg hle, if_pos (by simp [hch] : (g.channel == c) = true)]
          exact hrec
        · have hft3 : g.frame_type ≠ 3 := by simpa using hft
          rw [if_pos (by simp [hch]), if_neg (by simp [hft3])] at h
          exact absurd h (by simp)
      · rw [if_neg (by simp [hch])] at h
        obtain ⟨out, leftover, hrec⟩ := ih got h acc
        exact ⟨out, g :: leftover, by simp [takeBodies, hle, hch, hrec]⟩

/-- When the completeness check accepts, the whole delivery extraction
succeeds. -/
theorem extractDelivery_of_check (c : Nat) (q : List Frame)
    (h : CheckForQueuedMessageOnChannel c q = .ok true) :
    ∃ d props body leftover, extractDelivery c q = some (d, props, body, leftover) := by
  cases hf : findFrame (fun f => is_method_on_channel f AMQP_BASIC_DELIVER_METHOD c) q with
  | none =>
    have hf2 : findFrame (fun f => is_method_on_channel f 60060 c) q = none := hf
    simp [CheckForQueuedMessageOnChannel, hf2] at h
  | some pr =>
    obtain ⟨d, after⟩ := pr
    have hf2 : findFrame (fun f => is_method_on_channel f 60060 c) q = some (d, after) := hf
    cases hg : findFrame (fun f => is_on_channel f c) after with
    | none => simp [CheckForQueuedMessageOnChannel, hf2, hg] at h
    | some pr2 =>
      obtain ⟨g, after2⟩ := pr2
      by_cases hh : g.frame_type = AMQP_FRAME_HEADER
      · have hcb : checkBody c g.bodySize 0 after2 = .ok true := by
          simpa [CheckForQueuedMessageOnChannel, hf2, hg, hh] using h
        obtain ⟨pre1, hs1⟩ := splitFirst_of_findFrame _ q d after hf
        obtain ⟨pre2, hs2⟩ := splitFirst_of_findFrame _ after g after2 hg
        obtain ⟨out, leftover, ht⟩ := takeBodies_of_checkBody c g.bodySize after2 0 hcb []
        have hs1b : splitFirst (fun f => is_method_on_channel f 60060 c) q
            = some (pre1, d, after) := hs1
        exact ⟨d, g.headerProps, out, pre1 ++ pre2 ++ leftover,
          by simp [extractDelivery, hs1b, hs2, payload_header_of_frame_type g hh, ht]⟩
      · have hh2 : g.frame_type ≠ 2 := by simpa using hh
        simp [CheckForQueuedMessageOnChannel, hf2, hg, hh2] at h

/-- A protocol violation detected by the completeness check fails the
enqueue and leaves the frame parked. -/
theorem AddToFrameQueue_error (f : Frame) (s : CState) (e : Err)
    (h : CheckForQueuedMessageOnChannel f.channel (s.m_frame_queue ++ [f]) = .error e) :
    AddToFrameQueue f s = (.error e, { s with m_frame_queue := s.m_frame_queue ++ [f] }) := by
  simp [AddToFrameQueue, h]

/-- An incomplete delivery leaves the enqueued frame parked and delivers
nothing. -/
theorem AddToFrameQueue_notyet (f : Frame) (s : CState)
    (h : CheckForQueuedMessageOnChannel f.channel (s.m_frame_queue ++ [f]) = .ok false) :
    AddToFrameQueue f s = (.ok (), { s with m_frame_queue := s.m_frame_queue ++ [f] }) := by
  simp [AddToFrameQueue, h]

/-- A completed delivery is promoted onto the delivered-message list. -/
theorem AddToFrameQueue_promotes (f : Frame) (s : CState)
    (h : CheckForQueuedMessageOnChannel f.channel (s.m_frame_queue ++ [f]) = .ok true) :
    ∃ env s1, AddToFrameQueue f s = (.ok (), s1) ∧
      s1.m_delivered_messages = s.m_delivered_messages ++ [env] := by
  obtain ⟨d, props, body, leftover, hex⟩ :=
    extractDelivery_of_check f.channel (s.m_frame_queue ++ [f]) h
  refine ⟨⟨⟨props, body⟩, d.deliverConsumerTag, d.deliverDeliveryTag, f.channel⟩,
    { s with m_frame_queue := leftover,
             m_delivered_messages := s.m_delivered_messages ++
               [⟨⟨props, body⟩, d.deliverConsumerTag, d.deliverDeliveryTag, f.channel⟩] },
    ?_, ?_⟩
  · simp [AddToFrameQueue, h, ConsumeMessageOnChannelInner, hex]
  · rfl

/-- Claim C3: enqueuing a frame promotes a delivery to the
delivered-message list exactly when, on the enqueued frame's channel, the
earliest still-queued basic.deliver is followed — among that channel's
frames, in queue order — by a header frame and then by body frames whose
byte total reaches the declared body size (the declarative rule
specDeliveryComplete over the channel projection, which the code's
CheckForQueuedMessageOnChannel computes exactly); an incomplete delivery
(including a lone trailing deliver) leaves the queue unchanged apart from
the parked frame with nothing delivered, and a non-header same-channel
frame right after the deliver fails the enqueue with the
protocol-violation error. -/
theorem claim_C3 (s : CState) (f : Frame) :
    (CheckForQueuedMessageOnChannel f.channel (s.m_frame_queue ++ [f]) =
        specDeliveryComplete (projOnChannel f.channel (s.m_frame_queue ++ [f]))) ∧
    ((∃ env s1, AddToFrameQueue f s = (.ok (), s1) ∧
        s1.m_delivered_messages = s.m_delivered_messages ++ [env]) ↔
      specDeliveryComplete (projOnChannel f.channel (s.m_frame_queue ++ [f])) = .ok true) ∧
    (specDeliveryComplete (projOnChannel f.channel (s.m_frame_queue ++ [f])) = .ok false →
      AddToFrameQueue f s = (.ok (), { s with m_frame_queue := s.m_frame_queue ++ [f] })) ∧
    (∀ e, specDeliveryComplete (projOnChannel f.channel (s.m_frame_queue ++ [f])) = .error e →
      AddToFrameQueue f s = (.error e, { s with m_frame_queue := s.m_frame_queue ++ [f] })) := by
  have hc := CheckForQueued_spec f.channel (s.m_frame_queue ++ [f])
  refine ⟨hc, ?_, ?_, ?_⟩
  · constructor
    · rintro ⟨env, s1, hadd, hdel⟩
      cases hspec : specDeliveryComplete (projOnChannel f.channel (s.m_frame_queue ++ [f])) with
      | error e =>
        exfalso
        rw [AddToFrameQueue_error f s e (hc.trans hspec)] at hadd
        have hfst := congrArg Prod.fst hadd
        simp at hfst
      | ok b =>
        cases b with
        | true => rfl
        | false =>
          exfalso
          rw [AddToFrameQueue_notyet f s (hc.trans hspec)] at hadd
          have hs1 : ({ s with m_frame_queue := s.m_frame_queue ++ [f] } : CState) = s1 :=
            congrArg Prod.snd hadd
          rw [← hs1] at hdel
          have hlen := congrArg List.length hdel
          simp at hlen
    · intro hspec
      exact AddToFrameQueue_promotes f s (hc.trans hspec)
  · intro hspec
    exact AddToFrameQueue_notyet f s (hc.trans hspec)
  · intro e hspec
    exact AddToFrameQueue_error f s e (hc.trans hspec)

/-- Witness for claim C3: a body frame completing a queued
deliver + header pair is promoted to the delivered-message list, while a
lone basic.deliver stays parked in the queue with nothing delivered. -/
theorem claim_C3_witness :
    (∃ env s1,
        AddToFrameQueue ⟨1, FramePayload.body [7, 8, 9, 10]⟩
            (queueExample [⟨1, FramePayload.method (AmqpMethod.basicDeliver "ctag" 11)⟩,
              ⟨1, FramePayload.header 7 4⟩]) = (Except.ok (), s1) ∧
          s1.m_delivered_messages =
            (queueExample [⟨1, FramePayload.method (AmqpMethod.basicDeliver "ctag" 11)⟩,
              ⟨1, FramePayload.header 7 4⟩]).m_delivered_messages ++ [env]) ∧
    AddToFrameQueue ⟨1, FramePayload.method (AmqpMethod.basicDeliver "ct" 4)⟩
        (confirmExample []) =
      (Except.ok (), { confirmExample [] with
        m_frame_queue := [⟨1, FramePayload.method (AmqpMethod.basicDeliver "ct" 4)⟩] }) := by
  constructor
  · exact (claim_C3 (queueExample [⟨1, FramePayload.method (AmqpMethod.basicDeliver "ctag" 11)⟩,
      ⟨1, FramePayload.header 7 4⟩]) ⟨1, FramePayload.body [7, 8, 9, 10]⟩).2.1.mpr (by rfl)
  · exact (claim_C3 (confirmExample [])
      ⟨1, FramePayload.method (AmqpMethod.basicDeliver "ct" 4)⟩).2.2.1 (by rfl)
